import Mathlib

/-!
Verification of the LitKeeper crawl engine (`src/app/utils.py`).

The file shallowly embeds the pure, observable behaviour of
`download_story` and `create_epub_file`.  Network fetching plus HTML
extraction is abstracted as a map `site : Url → FetchOutcome`: for each
URL the site either raises a network error (`requests.RequestException`,
including `raise_for_status`), raises some other exception while the page
is being processed (e.g. `lxml` parsing), or yields the structured record
that the BeautifulSoup/lxml queries in the loop body would produce for
that document.  The crawl loop itself — the queue of chapter-start URLs,
the `processed_urls` set, the page loop, metadata extraction on chapter 1
page 1, description/title/content accumulation, series-title capture and
next-part enqueueing — is translated statement by statement.

Because the Python loops need not terminate (a page can point at itself
via its "Next Page" link), the interpreter takes a fuel argument counting
loop iterations; every theorem quantifies over the fuel or instantiates
it at a concrete sufficient value.  `Event` values instrument the
observable actions: `fetch u` is emitted for every `session.get(u)` call,
`chapterStart u` when a popped URL passes the visited-set check and
starts being processed (`processed_urls.add`), `enqueue u` for
`chapter_urls.append(u)`, and `overwriteTitle t` for the
`story_title = series_title` assignment in the series-panel handler.
-/

namespace LitKeeper

abbrev Url := String

/-- One `div.z_S` entry of the series panel: its optional `a.z_t` link
(text, href) and the text of its `span.z_pm` (if any). -/
structure SeriesDiv where
  link : Option (String × String)
  spanText : Option String
deriving DecidableEq, Repr

/-- The DOM queries the loop body performs on one fetched page, with the
raw (unstripped) texts they return.  `breadcrumb` is the list of texts of
the `a.h_aZ` links inside `div#BreadCrumbComponent` when that div exists;
`tagTexts` the texts of the `a.av_as.av_r` tag links; `descNode` the
`text_content()` of the first node matched by the description XPath;
`contentParas` is `some` exactly when `div.aa_ht` is found (and truthy),
carrying the `get_text(strip=True)` of each of its `p` children;
`nextPageHref` the `href` of the `a.l_bJ[title="Next Page"]` link;
`seriesPanel` the `div.z_S` records inside `div.panel.z_r.z_R`. -/
structure PageRecord where
  titleTag : Option String
  authorTag : Option String
  breadcrumb : Option (List String)
  tagTexts : List String
  descNode : Option String
  contentParas : Option (List String)
  nextPageHref : Option String
  seriesPanel : Option (List SeriesDiv)
deriving DecidableEq, Repr

/-- Result of one `session.get` plus the surrounding page processing:
either a `requests.RequestException`, any other exception raised while
the page is handled, or the extracted page record. -/
inductive FetchOutcome where
  | netError
  | parseError
  | ok (page : PageRecord)
deriving DecidableEq, Repr

/-- True when the outcome is one of the two exception cases (both are
caught by the `except` clauses at the bottom of the page loop, which
return the all-`None` tuple). -/
def FetchOutcome.isErr : FetchOutcome → Bool
  | .ok _ => false
  | _ => true

/-- Instrumentation of the loop body's observable actions. -/
inductive Event where
  | chapterStart (u : Url)
  | fetch (u : Url)
  | enqueue (u : Url)
  | overwriteTitle (t : String)
deriving DecidableEq, Repr

/-- The mutable locals of `download_story` that survive across loop
iterations. `processedUrls` models the Python `set` as a list queried by
membership. -/
structure CrawlState where
  storyTitle : String
  storyAuthor : String
  storyCategory : Option String
  storyTags : List String
  chapterUrls : List Url
  processedUrls : List Url
  seriesTitle : Option String
  chapterTitles : List String
  chapterContents : List String
  chapterDescriptions : List String
  currentPage : Nat
deriving DecidableEq, Repr

/-- Python `str.strip()`: drop leading and trailing whitespace.
Implemented by structural recursion over the character list so that the
kernel can evaluate it (the core `pyStrip` is defined through
byte-position recursion that does not reduce). -/
def pyStrip (s : String) : String :=
  ⟨((s.data.dropWhile Char.isWhitespace).reverse.dropWhile
      Char.isWhitespace).reverse⟩

/-- Python `str.lower()` (ASCII letters, which is all the comparisons in
the source care about). -/
def pyLower (s : String) : String := ⟨s.data.map Char.toLower⟩

/-- Python `str.startswith(pre)`. -/
def pyStartsWith (s pre : String) : Bool := pre.data.isPrefixOf s.data

/-- Python `sep.join(parts)`. -/
def pyJoin (sep : String) : List String → String
  | [] => ""
  | [p] => p
  | p :: rest => p ++ sep ++ pyJoin sep rest

/-- Structural worker for `pySplit`: one fuel unit per consumed
character. -/
def splitOnAux (sep : List Char) : Nat → List Char → List Char →
    List (List Char)
  | _, [], acc => [acc.reverse]
  | 0, cs, acc => [acc.reverse ++ cs]
  | fuel + 1, c :: cs, acc =>
    if sep.isPrefixOf (c :: cs) then
      acc.reverse :: splitOnAux sep fuel (List.drop sep.length (c :: cs)) []
    else
      splitOnAux sep fuel cs (c :: acc)

/-- Python `s.split(sep)` for a non-empty separator: non-overlapping
matches scanned left to right, empty chunks kept. -/
def pySplit (s sep : String) : List String :=
  if sep.data.isEmpty then [s]
  else (splitOnAux sep.data (s.data.length + 1) s.data []).map
    (fun cs => ⟨cs⟩)

/-- Python truthiness of an optional string: `None` and `""` are falsy
(`if not series_title:`, `if story_category ...`). -/
def truthyStr : Option String → Bool
  | none => false
  | some s => s != ""

/-- Lines 215-217 / 246-248: if the href is not absolute, prefix the host. -/
def absolutize (href : String) : Url :=
  if pyStartsWith href "http" then href else "https://www.literotica.com" ++ href

/-- Lines 173-179: the second `a.h_aZ` breadcrumb link, stripped, with the
"inc"-prefixed (case-insensitive) value replaced by the literal "I/T".
Returns `none` when the breadcrumb div is missing or has fewer than two
category links, in which case `story_category` keeps its previous value. -/
def deriveCategory : Option (List String) → Option String
  | some (_ :: raw :: _) =>
    let c := pyStrip raw
    some (if pyStartsWith (pyLower c) "inc" then "I/T" else c)
  | _ => none

/-- Lines 182-184: stripped tag-link texts, excluding those whose
stripped text starts with "inc" case-insensitively. -/
def scrapedTags (page : PageRecord) : List String :=
  (page.tagTexts.map pyStrip).filter (fun t => !(pyStartsWith (pyLower t) "inc"))

/-- Line 177: `story_category` keeps its previous value when no category
link pair is found. -/
def newCategoryOf (page : PageRecord) (old : Option String) : Option String :=
  match deriveCategory page.breadcrumb with
  | some c => some c
  | none => old

/-- Lines 182-186: the scraped tag list, with the (updated) category
prepended when it is truthy (`if story_category`) and not yet a member
(`story_category not in story_tags`). -/
def newTagsOf (page : PageRecord) (old : Option String) : List String :=
  let tags0 := scrapedTags page
  match newCategoryOf page old with
  | some c => if c ≠ "" ∧ c ∉ tags0 then c :: tags0 else tags0
  | none => tags0

/-- Lines 162-196: the `current_page == 1` block.  Computes
`current_title`; on chapter 1 additionally populates story title, author,
category and tags; always appends this chapter's description.  Returns
the updated state and `current_title`. -/
def page1Meta (page : PageRecord) (st : CrawlState) (currentChapter : Nat) :
    CrawlState × String :=
  let currentTitle := (page.titleTag.map pyStrip).getD "Unknown Chapter"
  let st :=
    if currentChapter = 1 then
      { st with
          storyTitle := currentTitle,
          storyAuthor := (page.authorTag.map pyStrip).getD st.storyAuthor,
          storyCategory := newCategoryOf page st.storyCategory,
          storyTags := newTagsOf page st.storyCategory }
    else st
  let desc := (page.descNode.map pyStrip).getD ""
  ({ st with chapterDescriptions := st.chapterDescriptions ++ [desc] }, currentTitle)

/-- Line 207: `current_chapter_content += paragraph.get_text(strip=True) + "\n\n"`
folded over the paragraphs of one page. -/
def paraFold (acc : String) (paras : List String) : String :=
  paras.foldl (fun a p => a ++ p ++ "\n\n") acc

/-- Lines 201-208: if `div.aa_ht` was found, record the chapter title
(page 1 only) and accumulate this page's paragraphs. -/
def contentStep (page : PageRecord) (st : CrawlState) (currentTitle : String)
    (acc : String) : CrawlState × String :=
  match page.contentParas with
  | none => (st, acc)
  | some paras =>
    let st1 :=
      if st.currentPage = 1 then
        { st with chapterTitles := st.chapterTitles ++ [currentTitle] }
      else st
    (st1, paraFold acc paras)

/-- Lines 228-238: first `div.z_S` having a `span.z_pm` whose string is
exactly "Series Info" and an `a.z_t` link; yields the link's stripped
text.  A "Series Info" div without a link does not stop the scan. -/
def findSeriesTitle : List SeriesDiv → Option String
  | [] => none
  | d :: rest =>
    if d.spanText = some "Series Info" then
      match d.link with
      | some l => some (pyStrip l.1)
      | none => findSeriesTitle rest
    else findSeriesTitle rest

/-- Lines 239-252: first `div.z_S` having an `a.z_t` link whose
`span.z_pm` text strips to "Next Part"; yields that link's href.  A div
without a link is skipped; a div with a link but the wrong span text
stops nothing (the `break` sits inside the `if`). -/
def findNextPartHref : List SeriesDiv → Option String
  | [] => none
  | d :: rest =>
    match d.link with
    | none => findNextPartHref rest
    | some l =>
      match d.spanText with
      | some s => if pyStrip s = "Next Part" then some l.2 else findNextPartHref rest
      | none => findNextPartHref rest

/-- Lines 228-238: capture the series title (and overwrite
`story_title`) when `series_title` is still falsy and the panel yields
one. -/
def seriesCapture (divs : List SeriesDiv) (st : CrawlState) :
    CrawlState × List Event :=
  if truthyStr st.seriesTitle then (st, [])
  else
    match findSeriesTitle divs with
    | some t =>
      ({ st with seriesTitle := some t, storyTitle := t },
       [Event.overwriteTitle t])
    | none => (st, [])

/-- Lines 239-252: enqueue the absolutized next-part URL unless it was
already visited. -/
def nextPartEnqueue (divs : List SeriesDiv) (st : CrawlState) :
    CrawlState × List Event :=
  match findNextPartHref divs with
  | some href =>
    let nextUrl := absolutize href
    if nextUrl ∈ st.processedUrls then (st, [])
    else ({ st with chapterUrls := st.chapterUrls ++ [nextUrl] },
          [Event.enqueue nextUrl])
  | none => (st, [])

/-- Lines 221-255, `else` branch (no next-page link): append the
accumulated chapter body, scan the series panel, and reset
`current_page` to 1. -/
def chapterEnd (page : PageRecord) (st : CrawlState) (acc : String) :
    CrawlState × List Event :=
  let st := { st with chapterContents := st.chapterContents ++ [acc] }
  match page.seriesPanel with
  | none => ({ st with currentPage := 1 }, [])
  | some divs =>
    let a := seriesCapture divs st
    let b := nextPartEnqueue divs a.1
    ({ b.1 with currentPage := 1 }, a.2 ++ b.2)

/-- Result of one iteration of the page loop on a successfully fetched
page: updated state, accumulated chapter content, the next page URL (or
`none` when the chapter just completed) and the chapter-end events. -/
structure IterOut where
  st : CrawlState
  acc : String
  next : Option Url
  evs : List Event
deriving Repr

/-- Lines 159-255: the body of the page loop for one `ok` page. -/
def processPage (page : PageRecord) (st : CrawlState) (acc : String)
    (currentChapter : Nat) : IterOut :=
  let m :=
    if st.currentPage = 1 then page1Meta page st currentChapter else (st, "")
  let c := contentStep page m.1 m.2 acc
  match page.nextPageHref with
  | some href =>
    { st := { c.1 with currentPage := c.1.currentPage + 1 }, acc := c.2,
      next := some (absolutize href), evs := [] }
  | none =>
    let e := chapterEnd page c.1 c.2
    { st := e.1, acc := c.2, next := none, evs := e.2 }

/-- Outcome of the page loop (`while current_url:`): the chapter
completed, the crawl aborted through an `except` clause, or the fuel ran
out (the Python loop would still be running). -/
inductive PLOut where
  | chapterDone (st : CrawlState)
  | failed
  | outOfFuel
deriving DecidableEq, Repr

/-- Lines 151-258, the `while current_url:` loop.  One unit of fuel per
fetch.  Returns the emitted events and the outcome. -/
def pageLoop (site : Url → FetchOutcome) :
    Nat → CrawlState → Url → String → Nat → List Event × PLOut
  | 0, _, _, _, _ => ([], .outOfFuel)
  | fuel + 1, st, currentUrl, acc, cc =>
    match site currentUrl with
    | .netError => ([Event.fetch currentUrl], .failed)
    | .parseError => ([Event.fetch currentUrl], .failed)
    | .ok page =>
      let it := processPage page st acc cc
      match it.next with
      | some nextUrl =>
        let r := pageLoop site fuel it.st nextUrl it.acc cc
        (Event.fetch currentUrl :: r.1, r.2)
      | none => (Event.fetch currentUrl :: it.evs, .chapterDone it.st)

/-- Outcome of the outer chapter loop. -/
inductive CrawlOut where
  | finished (st : CrawlState)
  | failed
  | outOfFuel
deriving DecidableEq, Repr

/-- Lines 141-258, the `while chapter_urls:` loop: pop the front URL,
discard it when already visited, otherwise mark it visited and run the
page loop; abort the whole crawl when the page loop aborts. -/
def crawlLoop (site : Url → FetchOutcome) :
    Nat → CrawlState → List Event × CrawlOut
  | 0, _ => ([], .outOfFuel)
  | fuel + 1, st =>
    match st.chapterUrls with
    | [] => ([], .finished st)
    | u :: rest =>
      let st1 := { st with chapterUrls := rest }
      if u ∈ st1.processedUrls then crawlLoop site fuel st1
      else
        let st2 := { st1 with processedUrls := u :: st1.processedUrls }
        let cc := st2.chapterContents.length + 1
        let r := pageLoop site fuel st2 u "" cc
        match r.2 with
        | .chapterDone st3 =>
          let r2 := crawlLoop site fuel st3
          (Event.chapterStart u :: (r.1 ++ r2.1), r2.2)
        | .failed => (Event.chapterStart u :: r.1, .failed)
        | .outOfFuel => (Event.chapterStart u :: r.1, .outOfFuel)

/-- Lines 126-139: the initial locals. -/
def initState (url : Url) : CrawlState where
  storyTitle := "Unknown Title"
  storyAuthor := "Unknown Author"
  storyCategory := none
  storyTags := []
  chapterUrls := [url]
  processedUrls := []
  seriesTitle := none
  chapterTitles := []
  chapterContents := []
  chapterDescriptions := []
  currentPage := 1

/-- Lines 272-275: `for i, (title, content) in enumerate(zip(...), 1)`. -/
def combineChapters (titles contents : List String) : String :=
  ((titles.zip contents).enum.map
      (fun ic =>
        "\n\nChapter " ++ toString (ic.1 + 1) ++ ": " ++ ic.2.1 ++ "\n\n" ++ ic.2.2)).foldl
    (· ++ ·) ""

/-- The 7-tuple `download_story` returns on success (`story_category`
may still be `None` inside a successful result). -/
structure DownloadResult where
  storyContent : String
  storyTitle : String
  storyAuthor : String
  storyCategory : Option String
  storyTags : List String
  chapterTitles : List String
  chapterDescriptions : List String
deriving DecidableEq, Repr

/-- Overall outcome of `download_story`: a populated result, the
`(None, None, None, None, None, None, None)` failure tuple, or fuel
exhaustion (no Python counterpart — the loop would still be running). -/
inductive DownloadOut where
  | result (r : DownloadResult)
  | failure
  | outOfFuel
deriving DecidableEq, Repr

/-- The populated result, when there is one. -/
def DownloadOut.res : DownloadOut → Option DownloadResult
  | .result r => some r
  | _ => none

/-- Lines 113-290: run the crawl from the seed URL and assemble the
returned tuple. -/
def download_story (site : Url → FetchOutcome) (fuel : Nat) (url : Url) :
    List Event × DownloadOut :=
  let r := crawlLoop site fuel (initState url)
  match r.2 with
  | .finished st =>
    (r.1, .result {
      storyContent := combineChapters st.chapterTitles st.chapterContents,
      storyTitle := st.storyTitle,
      storyAuthor := st.storyAuthor,
      storyCategory := st.storyCategory,
      storyTags := st.storyTags,
      chapterTitles := st.chapterTitles,
      chapterDescriptions := st.chapterDescriptions })
  | .failed => (r.1, .failure)
  | .outOfFuel => (r.1, .outOfFuel)

/-- URLs passed to `session.get`, in order. -/
def fetchedUrls (evs : List Event) : List Url :=
  evs.filterMap fun e => match e with | .fetch u => some u | _ => none

/-- URLs that began being processed as chapter starts, in order. -/
def chapterStarts (evs : List Event) : List Url :=
  evs.filterMap fun e => match e with | .chapterStart u => some u | _ => none

/-- Values assigned to `story_title` by the series-title capture, in order. -/
def overwrites (evs : List Event) : List String :=
  evs.filterMap fun e => match e with | .overwriteTitle t => some t | _ => none

/-- Paragraph lists of the successfully fetched pages, in fetch order (a
page without a content div contributes `[]`). -/
def fetchedParas (site : Url → FetchOutcome) (evs : List Event) :
    List (List String) :=
  evs.filterMap fun e =>
    match e with
    | .fetch u =>
      match site u with
      | .ok page => some (page.contentParas.getD [])
      | _ => none
    | _ => none

/-- The chapter contents of a finished crawl, when it finished. -/
def CrawlOut.finalContents : CrawlOut → Option (List String)
  | .finished st => some st.chapterContents
  | _ => none

/-- Concatenation of paragraphs, each followed by the blank-line
separator — the closed form of `paraFold` from the empty accumulator. -/
def parasText : List String → String
  | [] => ""
  | p :: rest => p ++ "\n\n" ++ parasText rest

/-- Modelled from the spec: "the chapter's body equals the ordered
concatenation of each page's paragraphs, separated by blank lines" — the
paragraphs interleaved with single blank-line separators and nothing
after the last one. -/
def specBody : List String → String
  | [] => ""
  | [p] => p
  | p :: rest => p ++ "\n\n" ++ specBody rest

/-!  The pure content of `create_epub_file` (lines 405-559) that the
claims are about: the `dc:description` metadata assembly and the list of
renderable sections whose emptiness triggers the `ValueError`.  File
output, cover generation, EPUB navigation and the catch-and-log wrappers
around individual section constructions are outside the model (none of
the modelled steps can raise). -/

/-- The observable part of a `create_epub_file` run: the value stored in
the `dc:description` field (if any), the file names of the sections
appended to the `chapters` list, and whether the
`ValueError("No valid chapters found")` is raised. -/
structure EpubOut where
  descriptionField : Option String
  sections : List String
  noChaptersError : Bool
deriving DecidableEq, Repr

/-- Lines 461-469: `"\n".join` of `"title: desc"` for zipped pairs with
truthy description, guarded by both lists being truthy; the metadata is
added only when at least one line was produced. -/
def descriptionMeta (chapter_titles chapter_descriptions : List String) :
    Option String :=
  if chapter_titles ≠ [] ∧ chapter_descriptions ≠ [] then
    let parts := (chapter_titles.zip chapter_descriptions).filterMap
      (fun td => if td.2 ≠ "" then some (td.1 ++ ": " ++ td.2) else none)
    if parts ≠ [] then some (pyJoin "\n" parts) else none
  else none

/-- Lines 477-537: the section list.  A metadata section when category or
tags are truthy, an introduction when the text before the first
"\n\nChapter " marker is non-blank, and one section per remaining split
part (every part yields a section; the per-section `except` clauses only
guard library calls that the model treats as total). -/
def epubSections (story_content : String) (story_category : Option String)
    (story_tags : List String) : List String :=
  let chapter_texts := pySplit story_content "\n\nChapter "
  (if truthyStr story_category ∨ story_tags ≠ [] then ["metadata.xhtml"] else [])
    ++ (if pyStrip chapter_texts.headI ≠ "" then ["intro.xhtml"] else [])
    ++ (chapter_texts.tail.enum.map
        (fun it => "chapter_" ++ toString (it.1 + 1) ++ ".xhtml"))

/-- Lines 405-559 (pure behaviour): description metadata, section list,
and the `ValueError` raised exactly when the section list is empty. -/
def create_epub_file (story_content : String)
    (chapter_titles chapter_descriptions : List String)
    (story_category : Option String) (story_tags : List String) : EpubOut :=
  let sections := epubSections story_content story_category story_tags
  { descriptionField := descriptionMeta chapter_titles chapter_descriptions,
    sections := sections,
    noChaptersError := sections.isEmpty }

/-!  Concrete sites used by witnesses and counterexamples. -/

/-- A page record with every optional field absent. -/
def blankPage : PageRecord where
  titleTag := none
  authorTag := none
  breadcrumb := none
  tagTexts := []
  descNode := none
  contentParas := none
  nextPageHref := none
  seriesPanel := none

/-- Site whose every fetch raises a network error. -/
def errSite : Url → FetchOutcome := fun _ => .netError

/-- Two-chapter site where chapter 2's second page is chapter 1's start
URL: `https://u` has no next page and a "Next Part" link to `https://v`;
`https://v` has a "Next Page" link back to `https://u`. -/
def refetchSite : Url → FetchOutcome := fun u =>
  if u = "https://u" then
    .ok { blankPage with
      titleTag := some "TU", contentParas := some ["U1"],
      seriesPanel := some [{ link := some ("Next", "https://v"),
                             spanText := some "Next Part" }] }
  else if u = "https://v" then
    .ok { blankPage with
      titleTag := some "TV", contentParas := some ["V1"],
      nextPageHref := some "https://u" }
  else .netError

/-- One chapter, one page, one paragraph "A". -/
def oneParaSite : Url → FetchOutcome := fun u =>
  if u = "https://u" then
    .ok { blankPage with titleTag := some "T", contentParas := some ["A"] }
  else .netError

/-- One chapter spanning two pages with paragraphs ["A", "B"] and ["C"]. -/
def twoPageSite : Url → FetchOutcome := fun u =>
  if u = "https://u" then
    .ok { blankPage with
      titleTag := some "T",
      contentParas := some ["A", "B"], nextPageHref := some "https://u2" }
  else if u = "https://u2" then
    .ok { blankPage with contentParas := some ["C"] }
  else .netError

/-- One chapter whose only page has a title and a description but no
content div at all. -/
def noContentDivSite : Url → FetchOutcome := fun u =>
  if u = "https://u" then
    .ok { blankPage with titleTag := some "T", descNode := some "D" }
  else .netError

/-- Chapter 1's series panel carries a "Series Info" link with EMPTY
text plus a "Next Part" link to chapter 2, whose own panel carries a
non-empty series title. -/
def emptySeriesSite : Url → FetchOutcome := fun u =>
  if u = "https://u" then
    .ok { blankPage with
      titleTag := some "C1", contentParas := some ["x"],
      seriesPanel := some
        [{ link := some ("", "https://s"), spanText := some "Series Info" },
         { link := some ("nx", "https://v"), spanText := some "Next Part" }] }
  else if u = "https://v" then
    .ok { blankPage with
      titleTag := some "C2", contentParas := some ["y"],
      seriesPanel := some
        [{ link := some ("Real Series", "https://s"),
           spanText := some "Series Info" }] }
  else .netError

/-- First page whose breadcrumb's second category link has empty text and
whose single tag is "alpha". -/
def emptyCategorySite : Url → FetchOutcome := fun u =>
  if u = "https://u" then
    .ok { blankPage with
      titleTag := some "T", breadcrumb := some ["Home", ""],
      tagTexts := ["alpha"], contentParas := some ["x"] }
  else .netError

/-- First page listing the same tag link twice. -/
def dupTagSite : Url → FetchOutcome := fun u =>
  if u = "https://u" then
    .ok { blankPage with
      titleTag := some "T", tagTexts := ["alpha", "alpha"],
      contentParas := some ["x"] }
  else .netError

/-- First page with an "Incest/Taboo" category and a mixture of "inc"
and ordinary tags. -/
def incestPage : PageRecord :=
  { blankPage with
    titleTag := some "T", authorTag := some "  Jane  ",
    breadcrumb := some ["Home", "Incest/Taboo"],
    tagTexts := ["Incest", "alpha"], contentParas := some ["x"] }

/-- Site serving `incestPage` at the seed URL. -/
def incestSite : Url → FetchOutcome := fun u =>
  if u = "https://u" then .ok incestPage else .netError

/-- One chapter whose only page has a content div containing zero
paragraphs. -/
def emptyParaSite : Url → FetchOutcome := fun u =>
  if u = "https://u" then
    .ok { blankPage with titleTag := some "T", contentParas := some [] }
  else .netError

/-- State produced by the page loop on `twoPageSite` from the initial
state (used to instantiate the chapter-body theorem). -/
def twoPageDoneState : CrawlState where
  storyTitle := "T"
  storyAuthor := "Unknown Author"
  storyCategory := none
  storyTags := []
  chapterUrls := ["https://u"]
  processedUrls := []
  seriesTitle := none
  chapterTitles := ["T"]
  chapterContents := ["A\n\nB\n\nC\n\n"]
  chapterDescriptions := [""]
  currentPage := 1

/-- State produced by the page loop on `emptyParaSite` from the initial
state: the empty chapter still received a title slot and an empty body. -/
def emptyParaDoneState : CrawlState where
  storyTitle := "T"
  storyAuthor := "Unknown Author"
  storyCategory := none
  storyTags := []
  chapterUrls := ["https://u"]
  processedUrls := []
  seriesTitle := none
  chapterTitles := ["T"]
  chapterContents := [""]
  chapterDescriptions := [""]
  currentPage := 1

/-- The result tuple of the crawl of `incestSite`. -/
def incestResult : DownloadResult where
  storyContent := "\n\nChapter 1: T\n\nx\n\n"
  storyTitle := "T"
  storyAuthor := "Jane"
  storyCategory := some "I/T"
  storyTags := ["I/T", "alpha"]
  chapterTitles := ["T"]
  chapterDescriptions := [""]

/-- The result tuple of the crawl of `mispairSite`: two chapter starts
were processed, but only one chapter title was recorded. -/
def mispairResult : DownloadResult where
  storyContent := "\n\nChapter 1: T2\n\n"
  storyTitle := "T1"
  storyAuthor := "Unknown Author"
  storyCategory := none
  storyTags := []
  chapterTitles := ["T2"]
  chapterDescriptions := ["D1", "D2"]

/-- Chapter 1 has a description but no content div (so no title slot);
chapter 2 has both.  The title list ends up shorter than the
description list and the packager zips them out of step. -/
def mispairSite : Url → FetchOutcome := fun u =>
  if u = "https://u" then
    .ok { blankPage with
      titleTag := some "T1", descNode := some "D1",
      seriesPanel := some [{ link := some ("nx", "https://w"),
                             spanText := some "Next Part" }] }
  else if u = "https://w" then
    .ok { blankPage with
      titleTag := some "T2", descNode := some "D2",
      contentParas := some ["x"] }
  else .netError

/-! ## Basic lemmas about the instrumentation projections -/

@[simp] theorem fetchedUrls_nil : fetchedUrls [] = [] := rfl
@[simp] theorem fetchedUrls_cons_fetch (u : Url) (evs : List Event) :
    fetchedUrls (Event.fetch u :: evs) = u :: fetchedUrls evs := rfl
@[simp] theorem fetchedUrls_cons_start (u : Url) (evs : List Event) :
    fetchedUrls (Event.chapterStart u :: evs) = fetchedUrls evs := rfl
@[simp] theorem fetchedUrls_cons_enqueue (u : Url) (evs : List Event) :
    fetchedUrls (Event.enqueue u :: evs) = fetchedUrls evs := rfl
@[simp] theorem fetchedUrls_cons_over (t : String) (evs : List Event) :
    fetchedUrls (Event.overwriteTitle t :: evs) = fetchedUrls evs := rfl
@[simp] theorem fetchedUrls_append (a b : List Event) :
    fetchedUrls (a ++ b) = fetchedUrls a ++ fetchedUrls b :=
  List.filterMap_append _ _ _

@[simp] theorem chapterStarts_nil : chapterStarts [] = [] := rfl
@[simp] theorem chapterStarts_cons_start (u : Url) (evs : List Event) :
    chapterStarts (Event.chapterStart u :: evs) = u :: chapterStarts evs := rfl
@[simp] theorem chapterStarts_cons_fetch (u : Url) (evs : List Event) :
    chapterStarts (Event.fetch u :: evs) = chapterStarts evs := rfl
@[simp] theorem chapterStarts_cons_enqueue (u : Url) (evs : List Event) :
    chapterStarts (Event.enqueue u :: evs) = chapterStarts evs := rfl
@[simp] theorem chapterStarts_cons_over (t : String) (evs : List Event) :
    chapterStarts (Event.overwriteTitle t :: evs) = chapterStarts evs := rfl
@[simp] theorem chapterStarts_append (a b : List Event) :
    chapterStarts (a ++ b) = chapterStarts a ++ chapterStarts b :=
  List.filterMap_append _ _ _

@[simp] theorem overwrites_nil : overwrites [] = [] := rfl
@[simp] theorem overwrites_cons_over (t : String) (evs : List Event) :
    overwrites (Event.overwriteTitle t :: evs) = t :: overwrites evs := rfl
@[simp] theorem overwrites_cons_fetch (u : Url) (evs : List Event) :
    overwrites (Event.fetch u :: evs) = overwrites evs := rfl
@[simp] theorem overwrites_cons_start (u : Url) (evs : List Event) :
    overwrites (Event.chapterStart u :: evs) = overwrites evs := rfl
@[simp] theorem overwrites_cons_enqueue (u : Url) (evs : List Event) :
    overwrites (Event.enqueue u :: evs) = overwrites evs := rfl
@[simp] theorem overwrites_append (a b : List Event) :
    overwrites (a ++ b) = overwrites a ++ overwrites b :=
  List.filterMap_append _ _ _

@[simp] theorem fetchedParas_nil (site : Url → FetchOutcome) :
    fetchedParas site [] = [] := rfl
@[simp] theorem fetchedParas_cons_start (site : Url → FetchOutcome) (u : Url)
    (evs : List Event) :
    fetchedParas site (Event.chapterStart u :: evs) = fetchedParas site evs := rfl
@[simp] theorem fetchedParas_cons_enqueue (site : Url → FetchOutcome) (u : Url)
    (evs : List Event) :
    fetchedParas site (Event.enqueue u :: evs) = fetchedParas site evs := rfl
@[simp] theorem fetchedParas_cons_over (site : Url → FetchOutcome) (t : String)
    (evs : List Event) :
    fetchedParas site (Event.overwriteTitle t :: evs) = fetchedParas site evs := rfl

theorem fetchedParas_cons_ok (site : Url → FetchOutcome) (u : Url)
    (page : PageRecord) (evs : List Event) (h : site u = .ok page) :
    fetchedParas site (Event.fetch u :: evs)
      = page.contentParas.getD [] :: fetchedParas site evs := by
  simp [fetchedParas, h]

theorem fetchedParas_of_no_fetch (site : Url → FetchOutcome) :
    ∀ evs : List Event, fetchedUrls evs = [] → fetchedParas site evs = [] := by
  intro evs h
  induction evs with
  | nil => rfl
  | cons e rest ih =>
    cases e with
    | fetch u => simp at h
    | chapterStart u => simpa using ih (by simpa using h)
    | enqueue u => simpa using ih (by simpa using h)
    | overwriteTitle t => simpa using ih (by simpa using h)

/-! ## String accumulation lemmas -/

theorem paraFold_eq (paras : List String) :
    ∀ acc, paraFold acc paras = acc ++ parasText paras := by
  induction paras with
  | nil => intro acc; simp [paraFold, parasText]
  | cons p rest ih =>
    intro acc
    show paraFold (acc ++ p ++ "\n\n") rest = _
    rw [ih (acc ++ p ++ "\n\n")]
    simp [parasText, String.append_assoc]

theorem parasText_append (a b : List String) :
    parasText (a ++ b) = parasText a ++ parasText b := by
  induction a with
  | nil => simp [parasText]
  | cons p rest ih => simp [parasText, ih, String.append_assoc]

theorem parasText_eq_specBody (ps : List String) (h : ps ≠ []) :
    parasText ps = specBody ps ++ "\n\n" := by
  induction ps with
  | nil => exact absurd rfl h
  | cons p rest ih =>
    cases rest with
    | nil => simp [parasText, specBody]
    | cons q rest2 =>
      show p ++ "\n\n" ++ parasText (q :: rest2) = _
      rw [ih (by simp), show specBody (p :: q :: rest2)
        = p ++ "\n\n" ++ specBody (q :: rest2) from rfl]
      simp [String.append_assoc]

/-! ## Specifications of the loop-body pieces -/

theorem page1Meta_spec (page : PageRecord) (st : CrawlState) (cc : Nat) :
    (page1Meta page st cc).2
      = (page.titleTag.map pyStrip).getD "Unknown Chapter" ∧
    (page1Meta page st cc).1.chapterDescriptions
      = st.chapterDescriptions ++ [(page.descNode.map pyStrip).getD ""] ∧
    (page1Meta page st cc).1.processedUrls = st.processedUrls ∧
    (page1Meta page st cc).1.chapterUrls = st.chapterUrls ∧
    (page1Meta page st cc).1.chapterContents = st.chapterContents ∧
    (page1Meta page st cc).1.chapterTitles = st.chapterTitles ∧
    (page1Meta page st cc).1.currentPage = st.currentPage ∧
    (page1Meta page st cc).1.seriesTitle = st.seriesTitle ∧
    (cc ≠ 1 →
      (page1Meta page st cc).1.storyAuthor = st.storyAuthor ∧
      (page1Meta page st cc).1.storyCategory = st.storyCategory ∧
      (page1Meta page st cc).1.storyTags = st.storyTags) ∧
    (cc = 1 →
      (page1Meta page st cc).1.storyAuthor
        = (page.authorTag.map pyStrip).getD st.storyAuthor ∧
      (page1Meta page st cc).1.storyCategory = newCategoryOf page st.storyCategory ∧
      (page1Meta page st cc).1.storyTags = newTagsOf page st.storyCategory) := by
  by_cases h : cc = 1 <;> simp [page1Meta, h]

theorem contentStep_spec (page : PageRecord) (st : CrawlState) (t acc : String) :
    (contentStep page st t acc).2 = acc ++ parasText (page.contentParas.getD []) ∧
    (contentStep page st t acc).1.processedUrls = st.processedUrls ∧
    (contentStep page st t acc).1.chapterUrls = st.chapterUrls ∧
    (contentStep page st t acc).1.chapterContents = st.chapterContents ∧
    (contentStep page st t acc).1.chapterDescriptions = st.chapterDescriptions ∧
    (contentStep page st t acc).1.currentPage = st.currentPage ∧
    (contentStep page st t acc).1.seriesTitle = st.seriesTitle ∧
    (contentStep page st t acc).1.storyAuthor = st.storyAuthor ∧
    (contentStep page st t acc).1.storyCategory = st.storyCategory ∧
    (contentStep page st t acc).1.storyTags = st.storyTags ∧
    (st.currentPage = 1 → page.contentParas.isSome = true →
      (contentStep page st t acc).1.chapterTitles = st.chapterTitles ++ [t]) ∧
    (page.contentParas = none →
      (contentStep page st t acc).1.chapterTitles = st.chapterTitles) ∧
    (st.currentPage ≠ 1 →
      (contentStep page st t acc).1.chapterTitles = st.chapterTitles) := by
  cases hc : page.contentParas <;> by_cases h : st.currentPage = 1 <;>
    simp [contentStep, hc, h, paraFold_eq, parasText]

theorem seriesCapture_spec (divs : List SeriesDiv) (st : CrawlState) :
    (seriesCapture divs st).1.processedUrls = st.processedUrls ∧
    (seriesCapture divs st).1.chapterUrls = st.chapterUrls ∧
    (seriesCapture divs st).1.chapterContents = st.chapterContents ∧
    (seriesCapture divs st).1.chapterTitles = st.chapterTitles ∧
    (seriesCapture divs st).1.chapterDescriptions = st.chapterDescriptions ∧
    (seriesCapture divs st).1.currentPage = st.currentPage ∧
    (seriesCapture divs st).1.storyAuthor = st.storyAuthor ∧
    (seriesCapture divs st).1.storyCategory = st.storyCategory ∧
    (seriesCapture divs st).1.storyTags = st.storyTags ∧
    fetchedUrls (seriesCapture divs st).2 = [] ∧
    chapterStarts (seriesCapture divs st).2 = [] ∧
    ((overwrites (seriesCapture divs st).2 = [] ∧
        (seriesCapture divs st).1.seriesTitle = st.seriesTitle) ∨
      (truthyStr st.seriesTitle = false ∧ ∃ t,
        overwrites (seriesCapture divs st).2 = [t] ∧
        (seriesCapture divs st).1.seriesTitle = some t)) := by
  by_cases h : truthyStr st.seriesTitle
  · simp [seriesCapture, h]
  · rw [Bool.not_eq_true] at h
    cases hf : findSeriesTitle divs <;> simp [seriesCapture, h, hf]

theorem nextPartEnqueue_spec (divs : List SeriesDiv) (st : CrawlState) :
    (nextPartEnqueue divs st).1.processedUrls = st.processedUrls ∧
    (nextPartEnqueue divs st).1.chapterContents = st.chapterContents ∧
    (nextPartEnqueue divs st).1.chapterTitles = st.chapterTitles ∧
    (nextPartEnqueue divs st).1.chapterDescriptions = st.chapterDescriptions ∧
    (nextPartEnqueue divs st).1.currentPage = st.currentPage ∧
    (nextPartEnqueue divs st).1.seriesTitle = st.seriesTitle ∧
    (nextPartEnqueue divs st).1.storyAuthor = st.storyAuthor ∧
    (nextPartEnqueue divs st).1.storyCategory = st.storyCategory ∧
    (nextPartEnqueue divs st).1.storyTags = st.storyTags ∧
    fetchedUrls (nextPartEnqueue divs st).2 = [] ∧
    chapterStarts (nextPartEnqueue divs st).2 = [] ∧
    overwrites (nextPartEnqueue divs st).2 = [] := by
  cases hf : findNextPartHref divs with
  | none => simp [nextPartEnqueue, hf]
  | some href =>
    by_cases h : absolutize href ∈ st.processedUrls <;>
      simp [nextPartEnqueue, hf, h]

theorem chapterEnd_spec (page : PageRecord) (st : CrawlState) (acc : String) :
    (chapterEnd page st acc).1.currentPage = 1 ∧
    (chapterEnd page st acc).1.chapterContents = st.chapterContents ++ [acc] ∧
    (chapterEnd page st acc).1.processedUrls = st.processedUrls ∧
    (chapterEnd page st acc).1.chapterTitles = st.chapterTitles ∧
    (chapterEnd page st acc).1.chapterDescriptions = st.chapterDescriptions ∧
    (chapterEnd page st acc).1.storyAuthor = st.storyAuthor ∧
    (chapterEnd page st acc).1.storyCategory = st.storyCategory ∧
    (chapterEnd page st acc).1.storyTags = st.storyTags ∧
    fetchedUrls (chapterEnd page st acc).2 = [] ∧
    chapterStarts (chapterEnd page st acc).2 = [] ∧
    ((overwrites (chapterEnd page st acc).2 = [] ∧
        (chapterEnd page st acc).1.seriesTitle = st.seriesTitle) ∨
      (truthyStr st.seriesTitle = false ∧ ∃ t,
        overwrites (chapterEnd page st acc).2 = [t] ∧
        (chapterEnd page st acc).1.seriesTitle = some t)) := by
  cases hp : page.seriesPanel with
  | none => simp [chapterEnd, hp]
  | some divs =>
    have hce : chapterEnd page st acc
        = ({ (nextPartEnqueue divs (seriesCapture divs
              { st with chapterContents := st.chapterContents ++ [acc] }).1).1
              with currentPage := 1 },
           (seriesCapture divs
              { st with chapterContents := st.chapterContents ++ [acc] }).2
             ++ (nextPartEnqueue divs (seriesCapture divs
              { st with chapterContents := st.chapterContents ++ [acc] }).1).2) := by
      simp only [chapterEnd, hp]
    have hs := seriesCapture_spec divs
      { st with chapterContents := st.chapterContents ++ [acc] }
    obtain ⟨s1, s2, s3, s4, s5, s6, s7, s8, s9, s10, s11, s12⟩ := hs
    have hn := nextPartEnqueue_spec divs
      (seriesCapture divs { st with chapterContents := st.chapterContents ++ [acc] }).1
    obtain ⟨n1, n2, n3, n4, n5, n6, n7, n8, n9, n10, n11, n12⟩ := hn
    rw [hce]
    refine ⟨rfl, by simp [n2, s3], by simp [n1, s1], by simp [n3, s4],
      by simp [n4, s5], by simp [n7, s7], by simp [n8, s8], by simp [n9, s9],
      by simp [n10, s10], by simp [n11, s11], ?_⟩
    rcases s12 with ⟨hov, hser⟩ | ⟨hfal, t, hov, hser⟩
    · exact Or.inl ⟨by simp [hov, n12], by simp [n6, hser]⟩
    · exact Or.inr ⟨hfal, t, by simp [hov, n12], by simp [n6, hser]⟩

theorem processPage_some (page : PageRecord) (st : CrawlState) (acc : String)
    (cc : Nat) (href : String) (hn : page.nextPageHref = some href) :
    (processPage page st acc cc).st.processedUrls = st.processedUrls ∧
    (processPage page st acc cc).evs = [] ∧
    (processPage page st acc cc).acc
      = acc ++ parasText (page.contentParas.getD []) ∧
    (processPage page st acc cc).next = some (absolutize href) ∧
    (processPage page st acc cc).st.chapterContents = st.chapterContents ∧
    (processPage page st acc cc).st.currentPage = st.currentPage + 1 ∧
    (processPage page st acc cc).st.seriesTitle = st.seriesTitle ∧
    (st.currentPage = 1 →
      (processPage page st acc cc).st.chapterDescriptions
        = st.chapterDescriptions ++ [(page.descNode.map pyStrip).getD ""]) ∧
    (st.currentPage ≠ 1 →
      (processPage page st acc cc).st.chapterDescriptions
        = st.chapterDescriptions) ∧
    (st.currentPage = 1 → page.contentParas.isSome = true →
      (processPage page st acc cc).st.chapterTitles
        = st.chapterTitles
            ++ [(page.titleTag.map pyStrip).getD "Unknown Chapter"]) ∧
    (page.contentParas = none →
      (processPage page st acc cc).st.chapterTitles = st.chapterTitles) ∧
    (st.currentPage ≠ 1 →
      (processPage page st acc cc).st.chapterTitles = st.chapterTitles) ∧
    ((cc ≠ 1 ∨ st.currentPage ≠ 1) →
      (processPage page st acc cc).st.storyAuthor = st.storyAuthor ∧
      (processPage page st acc cc).st.storyCategory = st.storyCategory ∧
      (processPage page st acc cc).st.storyTags = st.storyTags) ∧
    (cc = 1 → st.currentPage = 1 →
      (processPage page st acc cc).st.storyAuthor
        = (page.authorTag.map pyStrip).getD st.storyAuthor ∧
      (processPage page st acc cc).st.storyCategory
        = newCategoryOf page st.storyCategory ∧
      (processPage page st acc cc).st.storyTags
        = newTagsOf page st.storyCategory) := by
  by_cases hcp : st.currentPage = 1
  · have hpp : processPage page st acc cc =
        { st := { (contentStep page (page1Meta page st cc).1
                    (page1Meta page st cc).2 acc).1 with
                  currentPage := (contentStep page (page1Meta page st cc).1
                    (page1Meta page st cc).2 acc).1.currentPage + 1 },
          acc := (contentStep page (page1Meta page st cc).1
                    (page1Meta page st cc).2 acc).2,
          next := some (absolutize href), evs := [] } := by
      unfold processPage; rw [hn, if_pos hcp]
    obtain ⟨m1, m2, m3, m4, m5, m6, m7, m8, m9, m10⟩ := page1Meta_spec page st cc
    obtain ⟨c1, c2, c3, c4, c5, c6, c7, c8, c9, c10, c11, c12, c13⟩ :=
      contentStep_spec page (page1Meta page st cc).1 (page1Meta page st cc).2 acc
    rw [hpp]
    refine ⟨by simp [c2, m3], rfl, by simp [c1], rfl, by simp [c4, m5],
      by simp [c6, m7], by simp [c7, m8], fun _ => by simp [c5, m2],
      fun h => absurd hcp h, fun _ hs => ?_, fun hnone => ?_,
      fun h => absurd hcp h, fun h => ?_, fun h1 _ => ?_⟩
    · simp only []
      rw [c11 (by rw [m7]; exact hcp) hs, m6, m1]
    · simp only []
      rw [c12 hnone, m6]
    · rcases h with h | h
      · exact ⟨by simp [c8, (m9 h).1], by simp [c9, (m9 h).2.1],
          by simp [c10, (m9 h).2.2]⟩
      · exact absurd hcp h
    · exact ⟨by simp [c8, (m10 h1).1], by simp [c9, (m10 h1).2.1],
        by simp [c10, (m10 h1).2.2]⟩
  · have hpp : processPage page st acc cc =
        { st := { (contentStep page st "" acc).1 with
                  currentPage := (contentStep page st "" acc).1.currentPage + 1 },
          acc := (contentStep page st "" acc).2,
          next := some (absolutize href), evs := [] } := by
      unfold processPage; rw [hn, if_neg hcp]
    obtain ⟨c1, c2, c3, c4, c5, c6, c7, c8, c9, c10, c11, c12, c13⟩ :=
      contentStep_spec page st "" acc
    rw [hpp]
    refine ⟨by simp [c2], rfl, by simp [c1], rfl, by simp [c4],
      by simp [c6], by simp [c7], fun h => absurd h hcp,
      fun _ => by simp [c5], fun h => absurd h hcp,
      fun hnone => by simp [c12 hnone], fun _ => by simp [c13 hcp],
      fun _ => ⟨by simp [c8], by simp [c9], by simp [c10]⟩,
      fun _ h => absurd h hcp⟩

theorem processPage_none (page : PageRecord) (st : CrawlState) (acc : String)
    (cc : Nat) (hn : page.nextPageHref = none) :
    (processPage page st acc cc).st.processedUrls = st.processedUrls ∧
    fetchedUrls (processPage page st acc cc).evs = [] ∧
    chapterStarts (processPage page st acc cc).evs = [] ∧
    (processPage page st acc cc).acc
      = acc ++ parasText (page.contentParas.getD []) ∧
    (processPage page st acc cc).next = none ∧
    (processPage page st acc cc).st.chapterContents
      = st.chapterContents ++ [(processPage page st acc cc).acc] ∧
    (processPage page st acc cc).st.currentPage = 1 ∧
    (st.currentPage = 1 →
      (processPage page st acc cc).st.chapterDescriptions
        = st.chapterDescriptions ++ [(page.descNode.map pyStrip).getD ""]) ∧
    (st.currentPage ≠ 1 →
      (processPage page st acc cc).st.chapterDescriptions
        = st.chapterDescriptions) ∧
    (st.currentPage = 1 → page.contentParas.isSome = true →
      (processPage page st acc cc).st.chapterTitles
        = st.chapterTitles
            ++ [(page.titleTag.map pyStrip).getD "Unknown Chapter"]) ∧
    (page.contentParas = none →
      (processPage page st acc cc).st.chapterTitles = st.chapterTitles) ∧
    (st.currentPage ≠ 1 →
      (processPage page st acc cc).st.chapterTitles = st.chapterTitles) ∧
    ((cc ≠ 1 ∨ st.currentPage ≠ 1) →
      (processPage page st acc cc).st.storyAuthor = st.storyAuthor ∧
      (processPage page st acc cc).st.storyCategory = st.storyCategory ∧
      (processPage page st acc cc).st.storyTags = st.storyTags) ∧
    (cc = 1 → st.currentPage = 1 →
      (processPage page st acc cc).st.storyAuthor
        = (page.authorTag.map pyStrip).getD st.storyAuthor ∧
      (processPage page st acc cc).st.storyCategory
        = newCategoryOf page st.storyCategory ∧
      (processPage page st acc cc).st.storyTags
        = newTagsOf page st.storyCategory) ∧
    ((overwrites (processPage page st acc cc).evs = [] ∧
        (processPage page st acc cc).st.seriesTitle = st.seriesTitle) ∨
      (truthyStr st.seriesTitle = false ∧ ∃ t,
        overwrites (processPage page st acc cc).evs = [t] ∧
        (processPage page st acc cc).st.seriesTitle = some t)) := by
  by_cases hcp : st.currentPage = 1
  · have hpp : processPage page st acc cc =
        { st := (chapterEnd page (contentStep page (page1Meta page st cc).1
                    (page1Meta page st cc).2 acc).1
                  (contentStep page (page1Meta page st cc).1
                    (page1Meta page st cc).2 acc).2).1,
          acc := (contentStep page (page1Meta page st cc).1
                    (page1Meta page st cc).2 acc).2,
          next := none,
          evs := (chapterEnd page (contentStep page (page1Meta page st cc).1
                    (page1Meta page st cc).2 acc).1
                  (contentStep page (page1Meta page st cc).1
                    (page1Meta page st cc).2 acc).2).2 } := by
      unfold processPage; rw [hn, if_pos hcp]
    obtain ⟨m1, m2, m3, m4, m5, m6, m7, m8, m9, m10⟩ := page1Meta_spec page st cc
    obtain ⟨c1, c2, c3, c4, c5, c6, c7, c8, c9, c10, c11, c12, c13⟩ :=
      contentStep_spec page (page1Meta page st cc).1 (page1Meta page st cc).2 acc
    obtain ⟨e1, e2, e3, e4, e5, e6, e7, e8, e9, e10, e11⟩ :=
      chapterEnd_spec page
        (contentStep page (page1Meta page st cc).1 (page1Meta page st cc).2 acc).1
        (contentStep page (page1Meta page st cc).1 (page1Meta page st cc).2 acc).2
    rw [hpp]
    refine ⟨by simp [e3, c2, m3], by simp [e9], by simp [e10], by simp [c1],
      rfl, by simp only []; rw [e2, c4, m5], by simp [e1],
      fun _ => by simp only []; rw [e5, c5, m2],
      fun h => absurd hcp h, fun _ hs => ?_, fun hnone => ?_,
      fun h => absurd hcp h, fun h => ?_, fun h1 _ => ?_, ?_⟩
    · simp only []
      rw [e4, c11 (by rw [m7]; exact hcp) hs, m6, m1]
    · simp only []
      rw [e4, c12 hnone, m6]
    · rcases h with h | h
      · exact ⟨by simp only []; rw [e6, c8, (m9 h).1],
          by simp only []; rw [e7, c9, (m9 h).2.1],
          by simp only []; rw [e8, c10, (m9 h).2.2]⟩
      · exact absurd hcp h
    · exact ⟨by simp only []; rw [e6, c8, (m10 h1).1],
        by simp only []; rw [e7, c9, (m10 h1).2.1],
        by simp only []; rw [e8, c10, (m10 h1).2.2]⟩
    · have hser : (contentStep page (page1Meta page st cc).1
          (page1Meta page st cc).2 acc).1.seriesTitle = st.seriesTitle := by
        rw [c7, m8]
      rw [hser] at e11
      exact e11
  · have hpp : processPage page st acc cc =
        { st := (chapterEnd page (contentStep page st "" acc).1
                  (contentStep page st "" acc).2).1,
          acc := (contentStep page st "" acc).2,
          next := none,
          evs := (chapterEnd page (contentStep page st "" acc).1
                  (contentStep page st "" acc).2).2 } := by
      unfold processPage; rw [hn, if_neg hcp]
    obtain ⟨c1, c2, c3, c4, c5, c6, c7, c8, c9, c10, c11, c12, c13⟩ :=
      contentStep_spec page st "" acc
    obtain ⟨e1, e2, e3, e4, e5, e6, e7, e8, e9, e10, e11⟩ :=
      chapterEnd_spec page (contentStep page st "" acc).1
        (contentStep page st "" acc).2
    rw [hpp]
    refine ⟨by simp [e3, c2], by simp [e9], by simp [e10], by simp [c1],
      rfl, by simp only []; rw [e2, c4], by simp [e1],
      fun h => absurd h hcp, fun _ => by simp only []; rw [e5, c5],
      fun h => absurd h hcp,
      fun hnone => by simp only []; rw [e4, c12 hnone],
      fun _ => by simp only []; rw [e4, c13 hcp],
      fun _ => ⟨by simp only []; rw [e6, c8], by simp only []; rw [e7, c9],
        by simp only []; rw [e8, c10]⟩,
      fun _ h => absurd h hcp, ?_⟩
    · have hser : (contentStep page st "" acc).1.seriesTitle
        = st.seriesTitle := c7
      rw [hser] at e11
      exact e11

/-! ## Unfolding equations for the two loops -/

theorem pageLoop_zero (site : Url → FetchOutcome) (st : CrawlState) (u : Url)
    (acc : String) (cc : Nat) :
    pageLoop site 0 st u acc cc = ([], .outOfFuel) := rfl

theorem pageLoop_succ_err (site : Url → FetchOutcome) (fuel : Nat)
    (st : CrawlState) (u : Url) (acc : String) (cc : Nat)
    (hs : (site u).isErr = true) :
    pageLoop site (fuel + 1) st u acc cc = ([Event.fetch u], .failed) := by
  cases h : site u with
  | netError => simp only [pageLoop, h]
  | parseError => simp only [pageLoop, h]
  | ok page => rw [h] at hs; simp [FetchOutcome.isErr] at hs

theorem pageLoop_succ_some (site : Url → FetchOutcome) (fuel : Nat)
    (st : CrawlState) (u : Url) (acc : String) (cc : Nat) (page : PageRecord)
    (nextUrl : Url) (hs : site u = .ok page)
    (hnext : (processPage page st acc cc).next = some nextUrl) :
    pageLoop site (fuel + 1) st u acc cc
      = (Event.fetch u :: (pageLoop site fuel (processPage page st acc cc).st
            nextUrl (processPage page st acc cc).acc cc).1,
         (pageLoop site fuel (processPage page st acc cc).st
            nextUrl (processPage page st acc cc).acc cc).2) := by
  simp only [pageLoop, hs, hnext]

theorem pageLoop_succ_none (site : Url → FetchOutcome) (fuel : Nat)
    (st : CrawlState) (u : Url) (acc : String) (cc : Nat) (page : PageRecord)
    (hs : site u = .ok page)
    (hnext : (processPage page st acc cc).next = none) :
    pageLoop site (fuel + 1) st u acc cc
      = (Event.fetch u :: (processPage page st acc cc).evs,
         .chapterDone (processPage page st acc cc).st) := by
  simp only [pageLoop, hs, hnext]

theorem crawlLoop_zero (site : Url → FetchOutcome) (st : CrawlState) :
    crawlLoop site 0 st = ([], .outOfFuel) := rfl

theorem crawlLoop_succ_nil (site : Url → FetchOutcome) (fuel : Nat)
    (st : CrawlState) (hq : st.chapterUrls = []) :
    crawlLoop site (fuel + 1) st = ([], .finished st) := by
  simp only [crawlLoop, hq]

theorem crawlLoop_succ_skip (site : Url → FetchOutcome) (fuel : Nat)
    (st : CrawlState) (u : Url) (rest : List Url)
    (hq : st.chapterUrls = u :: rest) (hmem : u ∈ st.processedUrls) :
    crawlLoop site (fuel + 1) st
      = crawlLoop site fuel { st with chapterUrls := rest } := by
  simp only [crawlLoop, hq]
  rw [if_pos hmem]

theorem crawlLoop_succ_done (site : Url → FetchOutcome) (fuel : Nat)
    (st : CrawlState) (u : Url) (rest : List Url) (st3 : CrawlState)
    (hq : st.chapterUrls = u :: rest) (hmem : u ∉ st.processedUrls)
    (hdone : (pageLoop site fuel
        { st with chapterUrls := rest, processedUrls := u :: st.processedUrls }
        u "" (st.chapterContents.length + 1)).2 = .chapterDone st3) :
    crawlLoop site (fuel + 1) st
      = (Event.chapterStart u :: ((pageLoop site fuel
            { st with chapterUrls := rest,
                      processedUrls := u :: st.processedUrls }
            u "" (st.chapterContents.length + 1)).1
          ++ (crawlLoop site fuel st3).1),
         (crawlLoop site fuel st3).2) := by
  simp only [crawlLoop, hq]
  rw [if_neg hmem]
  simp only [hdone]

theorem crawlLoop_succ_failed (site : Url → FetchOutcome) (fuel : Nat)
    (st : CrawlState) (u : Url) (rest : List Url)
    (hq : st.chapterUrls = u :: rest) (hmem : u ∉ st.processedUrls)
    (hfail : (pageLoop site fuel
        { st with chapterUrls := rest, processedUrls := u :: st.processedUrls }
        u "" (st.chapterContents.length + 1)).2 = .failed) :
    crawlLoop site (fuel + 1) st
      = (Event.chapterStart u :: (pageLoop site fuel
            { st with chapterUrls := rest,
                      processedUrls := u :: st.processedUrls }
            u "" (st.chapterContents.length + 1)).1,
         .failed) := by
  simp only [crawlLoop, hq]
  rw [if_neg hmem]
  simp only [hfail]

theorem crawlLoop_succ_fuel (site : Url → FetchOutcome) (fuel : Nat)
    (st : CrawlState) (u : Url) (rest : List Url)
    (hq : st.chapterUrls = u :: rest) (hmem : u ∉ st.processedUrls)
    (hoof : (pageLoop site fuel
        { st with chapterUrls := rest, processedUrls := u :: st.processedUrls }
        u "" (st.chapterContents.length + 1)).2 = .outOfFuel) :
    crawlLoop site (fuel + 1) st
      = (Event.chapterStart u :: (pageLoop site fuel
            { st with chapterUrls := rest,
                      processedUrls := u :: st.processedUrls }
            u "" (st.chapterContents.length + 1)).1,
         .outOfFuel) := by
  simp only [crawlLoop, hq]
  rw [if_neg hmem]
  simp only [hoof]

/-! ## Invariants of the page loop -/

theorem mem_fetchedUrls {v : Url} {evs : List Event}
    (h : Event.fetch v ∈ evs) : v ∈ fetchedUrls evs :=
  List.mem_filterMap.mpr ⟨Event.fetch v, h, rfl⟩

theorem pageLoop_starts (site : Url → FetchOutcome) :
    ∀ (fuel : Nat) (st : CrawlState) (u : Url) (acc : String) (cc : Nat),
      chapterStarts (pageLoop site fuel st u acc cc).1 = [] := by
  intro fuel
  induction fuel with
  | zero => intro st u acc cc; rfl
  | succ fuel ih =>
    intro st u acc cc
    cases hs : site u with
    | netError =>
      rw [pageLoop_succ_err site fuel st u acc cc (by rw [hs]; rfl)]
      rfl
    | parseError =>
      rw [pageLoop_succ_err site fuel st u acc cc (by rw [hs]; rfl)]
      rfl
    | ok page =>
      cases hnext : (processPage page st acc cc).next with
      | some nextUrl =>
        rw [pageLoop_succ_some site fuel st u acc cc page nextUrl hs hnext]
        simp [ih]
      | none =>
        rw [pageLoop_succ_none site fuel st u acc cc page hs hnext]
        cases hnp : page.nextPageHref with
        | some href =>
          obtain ⟨-, -, -, h4, -⟩ := processPage_some page st acc cc href hnp
          rw [hnext] at h4
          exact absurd h4.symm (by simp)
        | none =>
          obtain ⟨-, -, h3, -⟩ := processPage_none page st acc cc hnp
          simpa using h3

theorem pageLoop_err (site : Url → FetchOutcome) :
    ∀ (fuel : Nat) (st : CrawlState) (u : Url) (acc : String) (cc : Nat)
      (v : Url), (site v).isErr = true →
      Event.fetch v ∈ (pageLoop site fuel st u acc cc).1 →
      (pageLoop site fuel st u acc cc).2 = .failed := by
  intro fuel
  induction fuel with
  | zero => intro st u acc cc v _ hmem; simp [pageLoop_zero] at hmem
  | succ fuel ih =>
    intro st u acc cc v hv hmem
    cases hs : site u with
    | netError =>
      rw [pageLoop_succ_err site fuel st u acc cc (by rw [hs]; rfl)]
    | parseError =>
      rw [pageLoop_succ_err site fuel st u acc cc (by rw [hs]; rfl)]
    | ok page =>
      cases hnext : (processPage page st acc cc).next with
      | some nextUrl =>
        rw [pageLoop_succ_some site fuel st u acc cc page nextUrl hs hnext] at hmem ⊢
        rcases List.mem_cons.mp hmem with heq | htail
        · have : v = u := by injection heq
          rw [this, hs] at hv
          simp [FetchOutcome.isErr] at hv
        · exact ih _ nextUrl _ cc v hv htail
      | none =>
        rw [pageLoop_succ_none site fuel st u acc cc page hs hnext] at hmem
        rcases List.mem_cons.mp hmem with heq | htail
        · have : v = u := by injection heq
          rw [this, hs] at hv
          simp [FetchOutcome.isErr] at hv
        · cases hnp : page.nextPageHref with
          | some href =>
            obtain ⟨-, -, -, h4, -⟩ := processPage_some page st acc cc href hnp
            rw [hnext] at h4
            exact absurd h4.symm (by simp)
          | none =>
            obtain ⟨-, h2, -⟩ := processPage_none page st acc cc hnp
            have := mem_fetchedUrls htail
            rw [h2] at this
            simp at this

theorem pageLoop_done (site : Url → FetchOutcome) :
    ∀ (fuel : Nat) (st : CrawlState) (u : Url) (acc : String) (cc : Nat)
      (st' : CrawlState),
      (pageLoop site fuel st u acc cc).2 = .chapterDone st' →
      st'.processedUrls = st.processedUrls ∧
      st'.currentPage = 1 ∧
      st'.chapterContents = st.chapterContents
        ++ [acc ++ parasText
              ((fetchedParas site (pageLoop site fuel st u acc cc).1).flatten)] := by
  intro fuel
  induction fuel with
  | zero => intro st u acc cc st' h; exact absurd h (by simp [pageLoop_zero])
  | succ fuel ih =>
    intro st u acc cc st' h
    cases hs : site u with
    | netError =>
      rw [pageLoop_succ_err site fuel st u acc cc (by rw [hs]; rfl)] at h
      exact absurd h (by simp)
    | parseError =>
      rw [pageLoop_succ_err site fuel st u acc cc (by rw [hs]; rfl)] at h
      exact absurd h (by simp)
    | ok page =>
      cases hnext : (processPage page st acc cc).next with
      | some nextUrl =>
        rw [pageLoop_succ_some site fuel st u acc cc page nextUrl hs hnext] at h ⊢
        obtain ⟨hih1, hih2, hih3⟩ := ih _ nextUrl _ cc st' h
        cases hnp : page.nextPageHref with
        | none =>
          obtain ⟨-, -, -, -, h5, -⟩ := processPage_none page st acc cc hnp
          rw [hnext] at h5
          exact absurd h5 (by simp)
        | some href =>
          obtain ⟨p1, p2, p3, p4, p5, p6, p7, p8, p9, p10, p11, p12, p13, p14⟩ :=
            processPage_some page st acc cc href hnp
          refine ⟨by rw [hih1, p1], hih2, ?_⟩
          rw [hih3, p5, p3]
          rw [fetchedParas_cons_ok site u page _ hs]
          simp [parasText_append, String.append_assoc]
      | none =>
        rw [pageLoop_succ_none site fuel st u acc cc page hs hnext] at h ⊢
        have hst' : st' = (processPage page st acc cc).st := by
          have := h
          simp at this
          exact this.symm
        cases hnp : page.nextPageHref with
        | some href =>
          obtain ⟨-, -, -, h4, -⟩ := processPage_some page st acc cc href hnp
          rw [hnext] at h4
          exact absurd h4.symm (by simp)
        | none =>
          obtain ⟨p1, p2, p3, p4, p5, p6, p7, p8⟩ :=
            processPage_none page st acc cc hnp
          subst hst'
          refine ⟨p1, p7, ?_⟩
          rw [fetchedParas_cons_ok site u page _ hs,
            fetchedParas_of_no_fetch site _ p2]
          rw [p6, p4]
          simp

theorem pageLoop_counts (site : Url → FetchOutcome) :
    ∀ (fuel : Nat) (st : CrawlState) (u : Url) (acc : String) (cc : Nat)
      (st' : CrawlState),
      (pageLoop site fuel st u acc cc).2 = .chapterDone st' →
      (st.currentPage = 1 → ∃ page, site u = .ok page ∧
        st'.chapterDescriptions = st.chapterDescriptions
          ++ [(page.descNode.map pyStrip).getD ""] ∧
        ((page.contentParas.isSome = true ∧
            st'.chapterTitles = st.chapterTitles
              ++ [(page.titleTag.map pyStrip).getD "Unknown Chapter"]) ∨
          (page.contentParas = none ∧ st'.chapterTitles = st.chapterTitles))) ∧
      (2 ≤ st.currentPage →
        st'.chapterDescriptions = st.chapterDescriptions ∧
        st'.chapterTitles = st.chapterTitles) := by
  intro fuel
  induction fuel with
  | zero => intro st u acc cc st' h; exact absurd h (by simp [pageLoop_zero])
  | succ fuel ih =>
    intro st u acc cc st' h
    cases hs : site u with
    | netError =>
      rw [pageLoop_succ_err site fuel st u acc cc (by rw [hs]; rfl)] at h
      exact absurd h (by simp)
    | parseError =>
      rw [pageLoop_succ_err site fuel st u acc cc (by rw [hs]; rfl)] at h
      exact absurd h (by simp)
    | ok page =>
      cases hnext : (processPage page st acc cc).next with
      | some nextUrl =>
        rw [pageLoop_succ_some site fuel st u acc cc page nextUrl hs hnext] at h
        obtain ⟨ih1, ih2⟩ := ih _ nextUrl _ cc st' h
        cases hnp : page.nextPageHref with
        | none =>
          obtain ⟨-, -, -, -, h5, -⟩ := processPage_none page st acc cc hnp
          rw [hnext] at h5
          exact absurd h5 (by simp)
        | some href =>
          obtain ⟨p1, p2, p3, p4, p5, p6, p7, p8, p9, p10, p11, p12, p13, p14⟩ :=
            processPage_some page st acc cc href hnp
          have hnext2 : (processPage page st acc cc).st.currentPage
              = st.currentPage + 1 := p6
          constructor
          · intro hcp
            obtain ⟨hd2, ht2⟩ := ih2 (by rw [hnext2, hcp])
            refine ⟨page, rfl, ?_, ?_⟩
            · rw [hd2, p8 hcp]
            · cases hcpar : page.contentParas with
              | some paras =>
                exact Or.inl ⟨rfl,
                  by rw [ht2, p10 hcp (by rw [hcpar]; rfl)]⟩
              | none => exact Or.inr ⟨rfl, by rw [ht2, p11 hcpar]⟩
          · intro hcp
            obtain ⟨hd2, ht2⟩ := ih2 (by rw [hnext2]; omega)
            have hne : st.currentPage ≠ 1 := by omega
            exact ⟨by rw [hd2, p9 hne], by rw [ht2, p12 hne]⟩
      | none =>
        rw [pageLoop_succ_none site fuel st u acc cc page hs hnext] at h
        have hst' : st' = (processPage page st acc cc).st := by
          simpa using h.symm
        cases hnp : page.nextPageHref with
        | some href =>
          obtain ⟨-, -, -, h4, -⟩ := processPage_some page st acc cc href hnp
          rw [hnext] at h4
          exact absurd h4.symm (by simp)
        | none =>
          obtain ⟨p1, p2, p3, p4, p5, p6, p7, p8, p9, p10, p11, p12, p13, p14, p15⟩ :=
            processPage_none page st acc cc hnp
          subst hst'
          constructor
          · intro hcp
            refine ⟨page, rfl, p8 hcp, ?_⟩
            cases hcpar : page.contentParas with
            | some paras =>
              exact Or.inl ⟨rfl, p10 hcp (by rw [hcpar]; rfl)⟩
            | none => exact Or.inr ⟨rfl, p11 hcpar⟩
          · intro hcp
            have hne : st.currentPage ≠ 1 := by omega
            exact ⟨p9 hne, p12 hne⟩

theorem pageLoop_meta_pres (site : Url → FetchOutcome) :
    ∀ (fuel : Nat) (st : CrawlState) (u : Url) (acc : String) (cc : Nat)
      (st' : CrawlState),
      (cc ≠ 1 ∨ 2 ≤ st.currentPage) →
      (pageLoop site fuel st u acc cc).2 = .chapterDone st' →
      st'.storyAuthor = st.storyAuthor ∧
      st'.storyCategory = st.storyCategory ∧
      st'.storyTags = st.storyTags := by
  intro fuel
  induction fuel with
  | zero => intro st u acc cc st' _ h; exact absurd h (by simp [pageLoop_zero])
  | succ fuel ih =>
    intro st u acc cc st' hdisj h
    have hdisj2 : cc ≠ 1 ∨ st.currentPage ≠ 1 := by
      rcases hdisj with h1 | h1
      · exact Or.inl h1
      · exact Or.inr (by omega)
    cases hs : site u with
    | netError =>
      rw [pageLoop_succ_err site fuel st u acc cc (by rw [hs]; rfl)] at h
      exact absurd h (by simp)
    | parseError =>
      rw [pageLoop_succ_err site fuel st u acc cc (by rw [hs]; rfl)] at h
      exact absurd h (by simp)
    | ok page =>
      cases hnext : (processPage page st acc cc).next with
      | some nextUrl =>
        rw [pageLoop_succ_some site fuel st u acc cc page nextUrl hs hnext] at h
        cases hnp : page.nextPageHref with
        | none =>
          obtain ⟨-, -, -, -, h5, -⟩ := processPage_none page st acc cc hnp
          rw [hnext] at h5
          exact absurd h5 (by simp)
        | some href =>
          obtain ⟨p1, p2, p3, p4, p5, p6, p7, p8, p9, p10, p11, p12, p13, p14⟩ :=
            processPage_some page st acc cc href hnp
          obtain ⟨hp1, hp2, hp3⟩ := p13 hdisj2
          have hdisj3 : cc ≠ 1
              ∨ 2 ≤ (processPage page st acc cc).st.currentPage := by
            rcases hdisj with h1 | h1
            · exact Or.inl h1
            · right; rw [p6]; omega
          obtain ⟨ih1, ih2, ih3⟩ := ih _ nextUrl _ cc st' hdisj3 h
          exact ⟨by rw [ih1, hp1], by rw [ih2, hp2], by rw [ih3, hp3]⟩
      | none =>
        rw [pageLoop_succ_none site fuel st u acc cc page hs hnext] at h
        have hst' : st' = (processPage page st acc cc).st := by
          simpa using h.symm
        cases hnp : page.nextPageHref with
        | some href =>
          obtain ⟨-, -, -, h4, -⟩ := processPage_some page st acc cc href hnp
          rw [hnext] at h4
          exact absurd h4.symm (by simp)
        | none =>
          obtain ⟨p1, p2, p3, p4, p5, p6, p7, p8, p9, p10, p11, p12, p13, p14, p15⟩ :=
            processPage_none page st acc cc hnp
          subst hst'
          exact p13 hdisj2

theorem pageLoop_meta_set (site : Url → FetchOutcome) (fuel : Nat)
    (st : CrawlState) (u : Url) (acc : String) (st' : CrawlState)
    (hcp : st.currentPage = 1)
    (h : (pageLoop site fuel st u acc 1).2 = .chapterDone st') :
    ∃ page, site u = .ok page ∧
      st'.storyAuthor = (page.authorTag.map pyStrip).getD st.storyAuthor ∧
      st'.storyCategory = newCategoryOf page st.storyCategory ∧
      st'.storyTags = newTagsOf page st.storyCategory := by
  cases fuel with
  | zero => exact absurd h (by simp [pageLoop_zero])
  | succ fuel =>
    cases hs : site u with
    | netError =>
      rw [pageLoop_succ_err site fuel st u acc 1 (by rw [hs]; rfl)] at h
      exact absurd h (by simp)
    | parseError =>
      rw [pageLoop_succ_err site fuel st u acc 1 (by rw [hs]; rfl)] at h
      exact absurd h (by simp)
    | ok page =>
      cases hnext : (processPage page st acc 1).next with
      | some nextUrl =>
        rw [pageLoop_succ_some site fuel st u acc 1 page nextUrl hs hnext] at h
        cases hnp : page.nextPageHref with
        | none =>
          obtain ⟨-, -, -, -, h5, -⟩ := processPage_none page st acc 1 hnp
          rw [hnext] at h5
          exact absurd h5 (by simp)
        | some href =>
          obtain ⟨p1, p2, p3, p4, p5, p6, p7, p8, p9, p10, p11, p12, p13, p14⟩ :=
            processPage_some page st acc 1 href hnp
          obtain ⟨hp1, hp2, hp3⟩ := p14 rfl hcp
          have hdisj : (1 : Nat) ≠ 1
              ∨ 2 ≤ (processPage page st acc 1).st.currentPage := by
            right; rw [p6, hcp]
          obtain ⟨ih1, ih2, ih3⟩ :=
            pageLoop_meta_pres site fuel _ nextUrl _ 1 st' hdisj h
          exact ⟨page, rfl, by rw [ih1, hp1], by rw [ih2, hp2], by rw [ih3, hp3]⟩
      | none =>
        rw [pageLoop_succ_none site fuel st u acc 1 page hs hnext] at h
        have hst' : st' = (processPage page st acc 1).st := by
          simpa using h.symm
        cases hnp : page.nextPageHref with
        | some href =>
          obtain ⟨-, -, -, h4, -⟩ := processPage_some page st acc 1 href hnp
          rw [hnext] at h4
          exact absurd h4.symm (by simp)
        | none =>
          obtain ⟨p1, p2, p3, p4, p5, p6, p7, p8, p9, p10, p11, p12, p13, p14, p15⟩ :=
            processPage_none page st acc 1 hnp
          subst hst'
          obtain ⟨hp1, hp2, hp3⟩ := p14 rfl hcp
          exact ⟨page, rfl, hp1, hp2, hp3⟩

theorem pageLoop_over (site : Url → FetchOutcome) :
    ∀ (fuel : Nat) (st : CrawlState) (u : Url) (acc : String) (cc : Nat),
      (∀ st', (pageLoop site fuel st u acc cc).2 = .chapterDone st' →
        (overwrites (pageLoop site fuel st u acc cc).1 = [] ∧
          st'.seriesTitle = st.seriesTitle) ∨
        (truthyStr st.seriesTitle = false ∧ ∃ t,
          overwrites (pageLoop site fuel st u acc cc).1 = [t] ∧
          st'.seriesTitle = some t)) ∧
      ((pageLoop site fuel st u acc cc).2 = .failed ∨
        (pageLoop site fuel st u acc cc).2 = .outOfFuel →
        overwrites (pageLoop site fuel st u acc cc).1 = []) := by
  intro fuel
  induction fuel with
  | zero =>
    intro st u acc cc
    exact ⟨fun st' h => absurd h (by simp [pageLoop_zero]),
      fun _ => by simp [pageLoop_zero]⟩
  | succ fuel ih =>
    intro st u acc cc
    cases hs : site u with
    | netError =>
      rw [pageLoop_succ_err site fuel st u acc cc (by rw [hs]; rfl)]
      exact ⟨fun st' h => absurd h (by simp), fun _ => rfl⟩
    | parseError =>
      rw [pageLoop_succ_err site fuel st u acc cc (by rw [hs]; rfl)]
      exact ⟨fun st' h => absurd h (by simp), fun _ => rfl⟩
    | ok page =>
      cases hnext : (processPage page st acc cc).next with
      | some nextUrl =>
        rw [pageLoop_succ_some site fuel st u acc cc page nextUrl hs hnext]
        cases hnp : page.nextPageHref with
        | none =>
          obtain ⟨-, -, -, -, h5, -⟩ := processPage_none page st acc cc hnp
          rw [hnext] at h5
          exact absurd h5 (by simp)
        | some href =>
          obtain ⟨p1, p2, p3, p4, p5, p6, p7, p8, p9, p10, p11, p12, p13, p14⟩ :=
            processPage_some page st acc cc href hnp
          obtain ⟨ihA, ihB⟩ := ih (processPage page st acc cc).st nextUrl
            (processPage page st acc cc).acc cc
          constructor
          · intro st' h
            simp only [] at h
            rcases ihA st' h with ⟨hov, hser⟩ | ⟨hfal, t, hov, hser⟩
            · exact Or.inl ⟨by simpa using hov, by rw [hser, p7]⟩
            · exact Or.inr ⟨by rw [p7] at hfal; exact hfal, t,
                by simpa using hov, hser⟩
          · intro hor
            simp only [] at hor
            simpa using ihB hor
      | none =>
        rw [pageLoop_succ_none site fuel st u acc cc page hs hnext]
        cases hnp : page.nextPageHref with
        | some href =>
          obtain ⟨-, -, -, h4, -⟩ := processPage_some page st acc cc href hnp
          rw [hnext] at h4
          exact absurd h4.symm (by simp)
        | none =>
          obtain ⟨p1, p2, p3, p4, p5, p6, p7, p8, p9, p10, p11, p12, p13, p14, p15⟩ :=
            processPage_none page st acc cc hnp
          constructor
          · intro st' h
            have hst' : st' = (processPage page st acc cc).st := by
              simpa using h.symm
            subst hst'
            rcases p15 with ⟨hov, hser⟩ | ⟨hfal, t, hov, hser⟩
            · exact Or.inl ⟨by simpa using hov, hser⟩
            · exact Or.inr ⟨hfal, t, by simpa using hov, hser⟩
          · intro hor
            rcases hor with hor | hor <;> exact absurd hor (by simp)

/-! ## Invariants of the chapter loop -/

theorem crawlLoop_starts (site : Url → FetchOutcome) :
    ∀ (fuel : Nat) (st : CrawlState),
      (chapterStarts (crawlLoop site fuel st).1).Nodup ∧
      ∀ v ∈ chapterStarts (crawlLoop site fuel st).1, v ∉ st.processedUrls := by
  intro fuel
  induction fuel with
  | zero =>
    intro st
    exact ⟨by simp [crawlLoop_zero], by simp [crawlLoop_zero]⟩
  | succ fuel ih =>
    intro st
    cases hq : st.chapterUrls with
    | nil =>
      rw [crawlLoop_succ_nil site fuel st hq]
      exact ⟨by simp, by simp⟩
    | cons u rest =>
      by_cases hmem : u ∈ st.processedUrls
      · rw [crawlLoop_succ_skip site fuel st u rest hq hmem]
        exact ih { st with chapterUrls := rest }
      · cases hpl : (pageLoop site fuel
            { st with chapterUrls := rest,
                      processedUrls := u :: st.processedUrls }
            u "" (st.chapterContents.length + 1)).2 with
        | chapterDone st3 =>
          rw [crawlLoop_succ_done site fuel st u rest st3 hq hmem hpl]
          obtain ⟨hd1, -, -⟩ := pageLoop_done site fuel _ u "" _ st3 hpl
          obtain ⟨ihn, ihm⟩ := ih st3
          have hst3 : st3.processedUrls = u :: st.processedUrls := hd1
          have hpls : chapterStarts (pageLoop site fuel
              { st with chapterUrls := rest,
                        processedUrls := u :: st.processedUrls }
              u "" (st.chapterContents.length + 1)).1 = [] :=
            pageLoop_starts site fuel _ u "" _
          constructor
          · simp only [chapterStarts_cons_start, chapterStarts_append, hpls,
              List.nil_append, List.nodup_cons]
            refine ⟨fun hu => ?_, ihn⟩
            have := ihm u hu
            rw [hst3] at this
            exact this (by simp)
          · intro v hv
            simp only [chapterStarts_cons_start, chapterStarts_append, hpls,
              List.nil_append, List.mem_cons] at hv
            rcases hv with rfl | hv
            · exact hmem
            · have := ihm v hv
              rw [hst3] at this
              intro hvmem
              exact this (by simp [hvmem])
        | failed =>
          rw [crawlLoop_succ_failed site fuel st u rest hq hmem hpl]
          have hpls := pageLoop_starts site fuel
            { st with chapterUrls := rest,
                      processedUrls := u :: st.processedUrls }
            u "" (st.chapterContents.length + 1)
          constructor
          · simp [hpls]
          · intro v hv
            simp only [chapterStarts_cons_start, hpls, List.mem_singleton] at hv
            rw [hv]
            exact hmem
        | outOfFuel =>
          rw [crawlLoop_succ_fuel site fuel st u rest hq hmem hpl]
          have hpls := pageLoop_starts site fuel
            { st with chapterUrls := rest,
                      processedUrls := u :: st.processedUrls }
            u "" (st.chapterContents.length + 1)
          constructor
          · simp [hpls]
          · intro v hv
            simp only [chapterStarts_cons_start, hpls] at hv
            simp at hv
            rw [hv]
            exact hmem

theorem crawlLoop_err (site : Url → FetchOutcome) :
    ∀ (fuel : Nat) (st : CrawlState) (v : Url),
      (site v).isErr = true →
      Event.fetch v ∈ (crawlLoop site fuel st).1 →
      (crawlLoop site fuel st).2 = .failed := by
  intro fuel
  induction fuel with
  | zero => intro st v _ hv; simp [crawlLoop_zero] at hv
  | succ fuel ih =>
    intro st v hverr hv
    cases hq : st.chapterUrls with
    | nil =>
      rw [crawlLoop_succ_nil site fuel st hq] at hv
      simp at hv
    | cons u rest =>
      by_cases hmem : u ∈ st.processedUrls
      · rw [crawlLoop_succ_skip site fuel st u rest hq hmem] at hv ⊢
        exact ih _ v hverr hv
      · cases hpl : (pageLoop site fuel
            { st with chapterUrls := rest,
                      processedUrls := u :: st.processedUrls }
            u "" (st.chapterContents.length + 1)).2 with
        | chapterDone st3 =>
          rw [crawlLoop_succ_done site fuel st u rest st3 hq hmem hpl] at hv ⊢
          simp only [List.mem_cons, List.mem_append] at hv
          rcases hv with heq | hv | hv
          · exact absurd heq (by simp)
          · have := pageLoop_err site fuel _ u "" _ v hverr hv
            rw [hpl] at this
            exact absurd this (by simp)
          · exact ih st3 v hverr hv
        | failed =>
          rw [crawlLoop_succ_failed site fuel st u rest hq hmem hpl]
        | outOfFuel =>
          rw [crawlLoop_succ_fuel site fuel st u rest hq hmem hpl] at hv ⊢
          simp only [List.mem_cons] at hv
          rcases hv with heq | hv
          · exact absurd heq (by simp)
          · have := pageLoop_err site fuel _ u "" _ v hverr hv
            rw [hpl] at this
            exact absurd this (by simp)

theorem crawlLoop_counts (site : Url → FetchOutcome) :
    ∀ (fuel : Nat) (st : CrawlState) (st' : CrawlState),
      st.currentPage = 1 →
      (crawlLoop site fuel st).2 = .finished st' →
      st'.chapterContents.length = st.chapterContents.length
        + (chapterStarts (crawlLoop site fuel st).1).length ∧
      st'.chapterDescriptions.length = st.chapterDescriptions.length
        + (chapterStarts (crawlLoop site fuel st).1).length ∧
      st'.chapterTitles.length ≤ st.chapterTitles.length
        + (chapterStarts (crawlLoop site fuel st).1).length := by
  intro fuel
  induction fuel with
  | zero => intro st st' _ h; exact absurd h (by simp [crawlLoop_zero])
  | succ fuel ih =>
    intro st st' hcp h
    cases hq : st.chapterUrls with
    | nil =>
      rw [crawlLoop_succ_nil site fuel st hq] at h ⊢
      have hst : st' = st := by simpa using h.symm
      subst hst
      simp
    | cons u rest =>
      by_cases hmem : u ∈ st.processedUrls
      · rw [crawlLoop_succ_skip site fuel st u rest hq hmem] at h ⊢
        exact ih { st with chapterUrls := rest } st' hcp h
      · cases hpl : (pageLoop site fuel
            { st with chapterUrls := rest,
                      processedUrls := u :: st.processedUrls }
            u "" (st.chapterContents.length + 1)).2 with
        | chapterDone st3 =>
          rw [crawlLoop_succ_done site fuel st u rest st3 hq hmem hpl] at h ⊢
          obtain ⟨-, hp1, hcont⟩ := pageLoop_done site fuel _ u "" _ st3 hpl
          obtain ⟨hcnt1, -⟩ := pageLoop_counts site fuel _ u "" _ st3 hpl
          obtain ⟨page, -, hdesc, htit⟩ := hcnt1 hcp
          obtain ⟨ih1, ih2, ih3⟩ := ih st3 st' hp1 h
          have hpls : chapterStarts (pageLoop site fuel
              { st with chapterUrls := rest,
                        processedUrls := u :: st.processedUrls }
              u "" (st.chapterContents.length + 1)).1 = [] :=
            pageLoop_starts site fuel _ u "" _
          simp only [chapterStarts_cons_start, chapterStarts_append, hpls,
            List.nil_append, List.length_cons]
          have hc3 : st3.chapterContents.length
              = st.chapterContents.length + 1 := by
            rw [hcont]; simp
          have hd3 : st3.chapterDescriptions.length
              = st.chapterDescriptions.length + 1 := by
            rw [hdesc]; simp
          have ht3 : st3.chapterTitles.length
              ≤ st.chapterTitles.length + 1 := by
            rcases htit with ⟨-, he⟩ | ⟨-, he⟩ <;> rw [he] <;> simp
          refine ⟨by rw [ih1, hc3]; omega, by rw [ih2, hd3]; omega, ?_⟩
          calc st'.chapterTitles.length
              ≤ st3.chapterTitles.length
                + (chapterStarts (crawlLoop site fuel st3).1).length := ih3
            _ ≤ st.chapterTitles.length + 1
                + (chapterStarts (crawlLoop site fuel st3).1).length := by
                  omega
            _ = _ := by omega
        | failed =>
          rw [crawlLoop_succ_failed site fuel st u rest hq hmem hpl] at h
          exact absurd h (by simp)
        | outOfFuel =>
          rw [crawlLoop_succ_fuel site fuel st u rest hq hmem hpl] at h
          exact absurd h (by simp)

theorem crawlLoop_meta_pres (site : Url → FetchOutcome) :
    ∀ (fuel : Nat) (st : CrawlState) (st' : CrawlState),
      1 ≤ st.chapterContents.length →
      (crawlLoop site fuel st).2 = .finished st' →
      st'.storyAuthor = st.storyAuthor ∧
      st'.storyCategory = st.storyCategory ∧
      st'.storyTags = st.storyTags := by
  intro fuel
  induction fuel with
  | zero => intro st st' _ h; exact absurd h (by simp [crawlLoop_zero])
  | succ fuel ih =>
    intro st st' hlen h
    cases hq : st.chapterUrls with
    | nil =>
      rw [crawlLoop_succ_nil site fuel st hq] at h
      have hst : st' = st := by simpa using h.symm
      subst hst
      exact ⟨rfl, rfl, rfl⟩
    | cons u rest =>
      by_cases hmem : u ∈ st.processedUrls
      · rw [crawlLoop_succ_skip site fuel st u rest hq hmem] at h
        exact ih { st with chapterUrls := rest } st' hlen h
      · cases hpl : (pageLoop site fuel
            { st with chapterUrls := rest,
                      processedUrls := u :: st.processedUrls }
            u "" (st.chapterContents.length + 1)).2 with
        | chapterDone st3 =>
          rw [crawlLoop_succ_done site fuel st u rest st3 hq hmem hpl] at h
          obtain ⟨-, -, hcont⟩ := pageLoop_done site fuel _ u "" _ st3 hpl
          have hcc : st.chapterContents.length + 1 ≠ 1 := by omega
          obtain ⟨hm1, hm2, hm3⟩ :=
            pageLoop_meta_pres site fuel _ u "" _ st3 (Or.inl hcc) hpl
          have hlen3 : 1 ≤ st3.chapterContents.length := by
            rw [hcont]; simp
          obtain ⟨ih1, ih2, ih3⟩ := ih st3 st' hlen3 h
          exact ⟨by rw [ih1, hm1], by rw [ih2, hm2], by rw [ih3, hm3]⟩
        | failed =>
          rw [crawlLoop_succ_failed site fuel st u rest hq hmem hpl] at h
          exact absurd h (by simp)
        | outOfFuel =>
          rw [crawlLoop_succ_fuel site fuel st u rest hq hmem hpl] at h
          exact absurd h (by simp)

theorem crawlLoop_over (site : Url → FetchOutcome) :
    ∀ (fuel : Nat) (st : CrawlState),
      (truthyStr st.seriesTitle = true →
        overwrites (crawlLoop site fuel st).1 = []) ∧
      (∀ x ∈ (overwrites (crawlLoop site fuel st).1).dropLast, x = "") := by
  intro fuel
  induction fuel with
  | zero =>
    intro st
    exact ⟨fun _ => by simp [crawlLoop_zero], by simp [crawlLoop_zero]⟩
  | succ fuel ih =>
    intro st
    cases hq : st.chapterUrls with
    | nil =>
      rw [crawlLoop_succ_nil site fuel st hq]
      exact ⟨fun _ => rfl, by simp⟩
    | cons u rest =>
      by_cases hmem : u ∈ st.processedUrls
      · rw [crawlLoop_succ_skip site fuel st u rest hq hmem]
        exact ih { st with chapterUrls := rest }
      · cases hpl : (pageLoop site fuel
            { st with chapterUrls := rest,
                      processedUrls := u :: st.processedUrls }
            u "" (st.chapterContents.length + 1)).2 with
        | chapterDone st3 =>
          rw [crawlLoop_succ_done site fuel st u rest st3 hq hmem hpl]
          obtain ⟨plA, -⟩ := pageLoop_over site fuel
            { st with chapterUrls := rest,
                      processedUrls := u :: st.processedUrls }
            u "" (st.chapterContents.length + 1)
          obtain ⟨ih1, ih2⟩ := ih st3
          rcases plA st3 hpl with ⟨hov, hser⟩ | ⟨hfal, t, hov, hser⟩
          · constructor
            · intro htr
              have htr3 : truthyStr st3.seriesTitle = true := by
                rw [hser]; exact htr
              simp [hov, ih1 htr3]
            · intro x hx
              simp only [overwrites_cons_start, overwrites_append, hov,
                List.nil_append] at hx
              exact ih2 x hx
          · constructor
            · intro htr
              exact absurd (htr.symm.trans hfal) (by simp)
            · intro x hx
              simp only [overwrites_cons_start, overwrites_append, hov,
                List.singleton_append] at hx
              by_cases ht : t = ""
              · subst ht
                cases hrest : overwrites (crawlLoop site fuel st3).1 with
                | nil => simp [hrest] at hx
                | cons r rs =>
                  rw [hrest, List.dropLast_cons₂] at hx
                  rcases List.mem_cons.mp hx with rfl | hx2
                  · rfl
                  · refine ih2 x ?_
                    rw [hrest]
                    exact hx2
              · have htr3 : truthyStr st3.seriesTitle = true := by
                  rw [hser]
                  simp [truthyStr, ht]
                rw [ih1 htr3] at hx
                simp at hx
        | failed =>
          rw [crawlLoop_succ_failed site fuel st u rest hq hmem hpl]
          obtain ⟨-, plB⟩ := pageLoop_over site fuel
            { st with chapterUrls := rest,
                      processedUrls := u :: st.processedUrls }
            u "" (st.chapterContents.length + 1)
          have hov := plB (Or.inl hpl)
          exact ⟨fun _ => by simp [hov], by simp [hov]⟩
        | outOfFuel =>
          rw [crawlLoop_succ_fuel site fuel st u rest hq hmem hpl]
          obtain ⟨-, plB⟩ := pageLoop_over site fuel
            { st with chapterUrls := rest,
                      processedUrls := u :: st.processedUrls }
            u "" (st.chapterContents.length + 1)
          have hov := plB (Or.inr hpl)
          exact ⟨fun _ => by simp [hov], by simp [hov]⟩

/-! ## Bridging `download_story` to the crawl loop -/

theorem download_story_trace (site : Url → FetchOutcome) (fuel : Nat)
    (url : Url) :
    (download_story site fuel url).1
      = (crawlLoop site fuel (initState url)).1 := by
  unfold download_story
  cases h : (crawlLoop site fuel (initState url)).2 <;> simp [h]

theorem download_story_of_failed (site : Url → FetchOutcome) (fuel : Nat)
    (url : Url) (h : (crawlLoop site fuel (initState url)).2 = .failed) :
    (download_story site fuel url).2 = .failure := by
  simp only [download_story, h]

theorem download_story_of_finished (site : Url → FetchOutcome) (fuel : Nat)
    (url : Url) (st : CrawlState)
    (h : (crawlLoop site fuel (initState url)).2 = .finished st) :
    (download_story site fuel url).2 = .result {
      storyContent := combineChapters st.chapterTitles st.chapterContents,
      storyTitle := st.storyTitle,
      storyAuthor := st.storyAuthor,
      storyCategory := st.storyCategory,
      storyTags := st.storyTags,
      chapterTitles := st.chapterTitles,
      chapterDescriptions := st.chapterDescriptions } := by
  simp only [download_story, h]

theorem download_story_of_fuel (site : Url → FetchOutcome) (fuel : Nat)
    (url : Url)
    (h : (crawlLoop site fuel (initState url)).2 = .outOfFuel) :
    (download_story site fuel url).2 = .outOfFuel := by
  simp only [download_story, h]

theorem download_story_result (site : Url → FetchOutcome) (fuel : Nat)
    (url : Url) (r : DownloadResult)
    (h : (download_story site fuel url).2 = .result r) :
    ∃ st, (crawlLoop site fuel (initState url)).2 = .finished st ∧
      r.storyContent = combineChapters st.chapterTitles st.chapterContents ∧
      r.storyTitle = st.storyTitle ∧
      r.storyAuthor = st.storyAuthor ∧
      r.storyCategory = st.storyCategory ∧
      r.storyTags = st.storyTags ∧
      r.chapterTitles = st.chapterTitles ∧
      r.chapterDescriptions = st.chapterDescriptions := by
  cases hc : (crawlLoop site fuel (initState url)).2 with
  | finished st =>
    have h2 := download_story_of_finished site fuel url st hc
    rw [h2] at h
    injection h with hh
    exact ⟨st, rfl, by rw [← hh], by rw [← hh], by rw [← hh], by rw [← hh],
      by rw [← hh], by rw [← hh], by rw [← hh]⟩
  | failed =>
    have h2 := download_story_of_failed site fuel url hc
    rw [h2] at h
    simp at h
  | outOfFuel =>
    have h2 := download_story_of_fuel site fuel url hc
    rw [h2] at h
    simp at h

/-- On a successful crawl the story author, category and tag list are the
ones extracted from the page at the seed URL (chapter 1, page 1) and are
never modified afterwards. -/
theorem download_story_meta (site : Url → FetchOutcome) (fuel : Nat)
    (url : Url) (r : DownloadResult)
    (h : (download_story site fuel url).2 = .result r) :
    ∃ page, site url = .ok page ∧
      r.storyAuthor = (page.authorTag.map pyStrip).getD "Unknown Author" ∧
      r.storyCategory = newCategoryOf page none ∧
      r.storyTags = newTagsOf page none := by
  obtain ⟨st, hfin, -, -, hauth, hcat, htags, -, -⟩ :=
    download_story_result site fuel url r h
  cases fuel with
  | zero => rw [crawlLoop_zero] at hfin; simp at hfin
  | succ fuel =>
    have hq : (initState url).chapterUrls = [url] := rfl
    have hmem : url ∉ (initState url).processedUrls := by simp [initState]
    cases hpl : (pageLoop site fuel
        { initState url with
            chapterUrls := [],
            processedUrls := url :: (initState url).processedUrls }
        url "" ((initState url).chapterContents.length + 1)).2 with
    | chapterDone st3 =>
      rw [crawlLoop_succ_done site fuel (initState url) url [] st3 hq hmem hpl]
        at hfin
      have hfin2 : (crawlLoop site fuel st3).2 = .finished st := by
        simpa using hfin
      have hcp1 : ({ initState url with
          chapterUrls := [],
          processedUrls := url :: (initState url).processedUrls } :
          CrawlState).currentPage = 1 := rfl
      obtain ⟨page, hsite, hA, hC, hT⟩ :=
        pageLoop_meta_set site fuel _ url "" st3 hcp1 hpl
      obtain ⟨-, -, hcont⟩ := pageLoop_done site fuel _ url "" _ st3 hpl
      have hlen3 : 1 ≤ st3.chapterContents.length := by rw [hcont]; simp
      obtain ⟨pA, pC, pT⟩ := crawlLoop_meta_pres site fuel st3 st hlen3 hfin2
      exact ⟨page, hsite, by rw [hauth, pA, hA]; rfl,
        by rw [hcat, pC, hC]; rfl, by rw [htags, pT, hT]; rfl⟩
    | failed =>
      rw [crawlLoop_succ_failed site fuel (initState url) url [] hq hmem hpl]
        at hfin
      simp at hfin
    | outOfFuel =>
      rw [crawlLoop_succ_fuel site fuel (initState url) url [] hq hmem hpl]
        at hfin
      simp at hfin

/-! ## Facts about category normalization and the tag list -/

theorem newCategoryOf_none (page : PageRecord) :
    newCategoryOf page none = deriveCategory page.breadcrumb := by
  unfold newCategoryOf
  cases deriveCategory page.breadcrumb <;> rfl

theorem deriveCategory_inc (l1 raw : String) (rest : List String)
    (hinc : pyStartsWith (pyLower (pyStrip raw)) "inc" = true) :
    deriveCategory (some (l1 :: raw :: rest)) = some "I/T" := by
  simp [deriveCategory, hinc]

theorem deriveCategory_shape (bc : Option (List String)) (c : String)
    (h : deriveCategory bc = some c) :
    c = "I/T" ∨ pyStartsWith (pyLower c) "inc" = false := by
  cases bc with
  | none => simp [deriveCategory] at h
  | some links =>
    match links with
    | [] => simp [deriveCategory] at h
    | [l1] => simp [deriveCategory] at h
    | l1 :: raw :: rest =>
      simp only [deriveCategory] at h
      injection h with h
      subst h
      by_cases hinc : pyStartsWith (pyLower (pyStrip raw)) "inc" = true
      · rw [if_pos hinc]; exact Or.inl rfl
      · rw [if_neg hinc]
        rw [Bool.not_eq_true] at hinc
        exact Or.inr hinc

theorem mem_scrapedTags (page : PageRecord) (x : String)
    (hx : x ∈ scrapedTags page) :
    pyStartsWith (pyLower x) "inc" = false := by
  unfold scrapedTags at hx
  obtain ⟨-, hmem⟩ := List.mem_filter.mp hx
  simpa using hmem

theorem newTagsOf_shape (page : PageRecord) :
    newTagsOf page none = scrapedTags page ∨
    (∃ c, newCategoryOf page none = some c ∧ c ≠ "" ∧
      c ∉ scrapedTags page ∧ newTagsOf page none = c :: scrapedTags page) := by
  unfold newTagsOf
  cases hc : newCategoryOf page none with
  | none => exact Or.inl rfl
  | some c =>
    dsimp only
    by_cases hcond : c ≠ "" ∧ c ∉ scrapedTags page
    · exact Or.inr ⟨c, rfl, hcond.1, hcond.2, by rw [if_pos hcond]⟩
    · exact Or.inl (by rw [if_neg hcond])

/-! ## Facts about the packager model -/

theorem descriptionMeta_spec (tl dl : List String) (h : tl.length = dl.length) :
    ((tl.zip dl).filterMap
        (fun td => if td.2 ≠ "" then some (td.1 ++ ": " ++ td.2) else none)
        ≠ [] →
      descriptionMeta tl dl
        = some (pyJoin "\n" ((tl.zip dl).filterMap
            (fun td =>
              if td.2 ≠ "" then some (td.1 ++ ": " ++ td.2) else none)))) ∧
    ((tl.zip dl).filterMap
        (fun td => if td.2 ≠ "" then some (td.1 ++ ": " ++ td.2) else none)
        = [] →
      descriptionMeta tl dl = none) := by
  cases tl with
  | nil =>
    have hdl : dl = [] := by
      cases dl with
      | nil => rfl
      | cons d ds => simp at h
    subst hdl
    exact ⟨fun hne => absurd rfl hne, fun _ => by simp [descriptionMeta]⟩
  | cons t ts =>
    have hdl : dl ≠ [] := by
      cases dl with
      | nil => simp at h
      | cons d ds => simp
    constructor
    · intro hne
      unfold descriptionMeta
      rw [if_pos ⟨by simp, hdl⟩, if_pos hne]
    · intro hnil
      unfold descriptionMeta
      rw [if_pos ⟨by simp, hdl⟩, if_neg (by rw [hnil]; simp)]

theorem epubSections_eq_nil_iff (content : String) (cat : Option String)
    (tags : List String) :
    epubSections content cat tags = [] ↔
      (truthyStr cat = false ∧ tags = [] ∧
        pyStrip (pySplit content "\n\nChapter ").headI = "" ∧
        (pySplit content "\n\nChapter ").tail = []) := by
  by_cases h1 : truthyStr cat = true <;>
    by_cases h3 : pyStrip (pySplit content "\n\nChapter ").headI = "" <;>
      cases htail : (pySplit content "\n\nChapter ").tail <;>
        simp [epubSections, h1, h3, htail]

theorem newTagsOf_excludes (page : PageRecord) (x : String)
    (hx : pyStartsWith (pyLower x) "inc" = true) :
    x ∉ newTagsOf page none := by
  rcases newTagsOf_shape page with he | ⟨c, hc, -, -, he⟩ <;> rw [he]
  · intro hmem
    rw [mem_scrapedTags page x hmem] at hx
    simp at hx
  · intro hmem
    rcases List.mem_cons.mp hmem with heq | hmem2
    · subst heq
      rcases deriveCategory_shape page.breadcrumb x
          (by rw [← newCategoryOf_none]; exact hc) with heq2 | hfalse
      · subst heq2
        exact absurd hx (by decide)
      · rw [hfalse] at hx
        simp at hx
    · rw [mem_scrapedTags page x hmem2] at hx
      simp at hx

/-! ## The claims -/

/-- C1: whenever any fetch of the crawl raises a network error, or any
page's processing raises any other exception, `download_story` returns
the single failure outcome (modelled by `DownloadOut.failure`, the
`(None, None, None, None, None, None, None)` tuple of the source); no
chapter list, metadata or combined content from already-completed
chapters reaches the caller. -/
theorem C1_error_aborts_whole_crawl (site : Url → FetchOutcome) (fuel : Nat)
    (url u : Url) (herr : (site u).isErr = true)
    (hfetch : Event.fetch u ∈ (download_story site fuel url).1) :
    (download_story site fuel url).2 = DownloadOut.failure := by
  have hcrawl : Event.fetch u ∈ (crawlLoop site fuel (initState url)).1 := by
    rw [← download_story_trace]
    exact hfetch
  exact download_story_of_failed site fuel url
    (crawlLoop_err site fuel (initState url) u herr hcrawl)

/-- Witness for C1 at a site whose every fetch fails: the seed fetch is
issued and the crawl returns the failure tuple. -/
theorem C1_error_aborts_whole_crawl_witness :
    (errSite "https://e").isErr = true ∧
    Event.fetch "https://e" ∈ (download_story errSite 5 "https://e").1 ∧
    (download_story errSite 5 "https://e").2 = DownloadOut.failure :=
  ⟨by decide, by decide,
    C1_error_aborts_whole_crawl errSite 5 "https://e" "https://e"
      (by decide) (by decide)⟩

/-- C2 counterexample: on `refetchSite` the seed `https://u` is marked
visited and processed as chapter 1, yet it is fetched a second time —
chapter 2's "Next Page" link points back at it and the page loop follows
next-page links without consulting `processed_urls`.  The crawl still
finishes normally, with `https://u` appearing twice in the fetch trace. -/
theorem C2_counterexample :
    chapterStarts (download_story refetchSite 10 "https://u").1
      = ["https://u", "https://v"] ∧
    fetchedUrls (download_story refetchSite 10 "https://u").1
      = ["https://u", "https://v", "https://u"] ∧
    (download_story refetchSite 10 "https://u").2.res.isSome = true := by
  decide

/-- C2 amended: the dedup guards only chapter starts — a popped queue
entry already in `processed_urls` is discarded without fetching and a
discovered next-chapter Location already in `processed_urls` is not
enqueued, so no Location is ever processed (fetched) as a chapter start
twice; next-page links, however, are followed without any visited-set
check and may re-fetch a visited Location. -/
theorem C2_amended_chapter_starts_deduped (site : Url → FetchOutcome)
    (fuel : Nat) (url : Url) :
    (chapterStarts (download_story site fuel url).1).Nodup := by
  rw [download_story_trace]
  exact (crawlLoop_starts site fuel (initState url)).1

/-- C3 counterexample: a one-page chapter with the single paragraph "A"
is recorded with body `"A\n\n"`, not the plain blank-line-separated
concatenation `"A"` that the claim describes. -/
theorem C3_counterexample :
    (crawlLoop oneParaSite 10 (initState "https://u")).2.finalContents
      = some ["A\n\n"] ∧
    specBody ["A"] = "A" ∧ ("A\n\n" : String) ≠ "A" := by decide

/-- C3 amended: the chapter body accumulated by the page loop is the
ordered concatenation of every fetched page's paragraphs in page order,
each paragraph followed by one blank-line separator; equivalently, for a
non-empty paragraph list it is the spec's blank-line-separated
concatenation (`specBody`) plus a single trailing separator, and for an
empty one it is the empty string. -/
theorem C3_amended_chapter_body (site : Url → FetchOutcome) (fuel : Nat)
    (st : CrawlState) (u : Url) (acc : String) (cc : Nat) (st' : CrawlState)
    (h : (pageLoop site fuel st u acc cc).2 = .chapterDone st') :
    st'.chapterContents = st.chapterContents
      ++ [acc ++ parasText
            ((fetchedParas site (pageLoop site fuel st u acc cc).1).flatten)] ∧
    (∀ ps : List String, ps ≠ [] → parasText ps = specBody ps ++ "\n\n") ∧
    parasText ([] : List String) = "" :=
  ⟨(pageLoop_done site fuel st u acc cc st' h).2.2, parasText_eq_specBody, rfl⟩

/-- Witness for C3 at a chapter spanning two pages with paragraphs
["A", "B"] and ["C"]: the recorded body is "A\n\nB\n\nC\n\n". -/
theorem C3_amended_chapter_body_witness :
    (pageLoop twoPageSite 5 (initState "https://u") "https://u" "" 1).2
      = PLOut.chapterDone twoPageDoneState ∧
    twoPageDoneState.chapterContents = ["A\n\nB\n\nC\n\n"] := by
  refine ⟨by decide, ?_⟩
  have h := C3_amended_chapter_body twoPageSite 5 (initState "https://u")
    "https://u" "" 1 twoPageDoneState (by decide)
  rw [h.1]
  decide

/-- C4 counterexample: a processed chapter-start whose only page has no
content div yields zero extracted paragraphs; the crawl records its
description and an empty body, but — contrary to the claim — no chapter
title, so numbering does desynchronize. -/
theorem C4_counterexample :
    (download_story noContentDivSite 10 "https://u").2.res.map
        (fun r => r.chapterTitles) = some [] ∧
    (download_story noContentDivSite 10 "https://u").2.res.map
        (fun r => r.chapterDescriptions) = some ["D"] ∧
    (crawlLoop noContentDivSite 10 (initState "https://u")).2.finalContents
      = some [""] := by
  decide

/-- C4 amended: every completed chapter appends exactly one body
(possibly empty) and one description; the chapter title is recorded
exactly when page 1's content block is present — in particular a chapter
whose content block is present but holds zero paragraphs still gets its
title and an empty-body slot, while a chapter whose first page lacks the
content block gets the slot but no title. -/
theorem C4_amended_chapter_slot (site : Url → FetchOutcome) (fuel : Nat)
    (st : CrawlState) (u : Url) (acc : String) (cc : Nat) (st' : CrawlState)
    (hcp : st.currentPage = 1)
    (h : (pageLoop site fuel st u acc cc).2 = .chapterDone st') :
    ∃ page, site u = .ok page ∧
      st'.chapterContents.length = st.chapterContents.length + 1 ∧
      st'.chapterDescriptions.length = st.chapterDescriptions.length + 1 ∧
      (page.contentParas.isSome = true →
        st'.chapterTitles = st.chapterTitles
          ++ [(page.titleTag.map pyStrip).getD "Unknown Chapter"]) ∧
      (page.contentParas = none →
        st'.chapterTitles = st.chapterTitles) := by
  obtain ⟨h1, -⟩ := pageLoop_counts site fuel st u acc cc st' h
  obtain ⟨page, hsite, hdesc, htit⟩ := h1 hcp
  obtain ⟨-, -, hcont⟩ := pageLoop_done site fuel st u acc cc st' h
  refine ⟨page, hsite, by rw [hcont]; simp, by rw [hdesc]; simp, ?_, ?_⟩
  · intro hs
    rcases htit with ⟨-, he⟩ | ⟨hn, -⟩
    · exact he
    · rw [hn] at hs; simp at hs
  · intro hn
    rcases htit with ⟨hs, -⟩ | ⟨-, he⟩
    · rw [hn] at hs; simp at hs
    · exact he

/-- Witness for C4 at a chapter whose content div holds zero paragraphs:
title recorded, empty body and one description appended. -/
theorem C4_amended_chapter_slot_witness :
    (pageLoop emptyParaSite 10 (initState "https://u") "https://u" "" 1).2
      = PLOut.chapterDone emptyParaDoneState ∧
    emptyParaDoneState.chapterTitles = ["T"] ∧
    emptyParaDoneState.chapterContents.length = 1 ∧
    emptyParaDoneState.chapterDescriptions.length = 1 := by
  refine ⟨by decide, ?_, by decide, by decide⟩
  obtain ⟨page, hsite, -, -, htit, -⟩ := C4_amended_chapter_slot emptyParaSite
    10 (initState "https://u") "https://u" "" 1 emptyParaDoneState rfl
    (by decide)
  have hpage : page = { blankPage with
      titleTag := some "T", contentParas := some [] } := by
    have : emptyParaSite "https://u" = .ok { blankPage with
        titleTag := some "T", contentParas := some [] } := by decide
    rw [this] at hsite
    injection hsite with hh
    exact hh.symm
  subst hpage
  rw [htit (by decide)]
  decide

/-- C5 counterexample: on `emptySeriesSite` chapter 1's series panel
carries a "Series Info" link with empty text, so `story_title` is
overwritten with `""`; because the empty string is falsy, chapter 2's
panel overwrites the story title a second time — two `overwriteTitle`
events in one crawl, and the final title is the second series title. -/
theorem C5_counterexample :
    overwrites (download_story emptySeriesSite 20 "https://u").1
      = ["", "Real Series"] ∧
    (download_story emptySeriesSite 20 "https://u").2.res.map
      (fun r => r.storyTitle) = some "Real Series" := by
  decide

/-- C5 amended: in any crawl, every series-title overwrite except
possibly the last one wrote the empty string — equivalently, once a
NON-EMPTY series title has been captured no later series discovery
changes the story title again, but a captured EMPTY series title (falsy
in Python) does not stop a later capture from overwriting the title once
more. -/
theorem C5_amended_overwrite_once_nonempty (site : Url → FetchOutcome)
    (fuel : Nat) (url : Url) :
    ∀ x ∈ (overwrites (download_story site fuel url).1).dropLast, x = "" := by
  rw [download_story_trace]
  exact (crawlLoop_over site fuel (initState url)).2

/-- Witness for C5 on the two-overwrite site: the non-final overwrite is
the empty string. -/
theorem C5_amended_overwrite_once_nonempty_witness :
    "" ∈ (overwrites (download_story emptySeriesSite 20 "https://u").1).dropLast
      ∧ ("" : String) = "" :=
  ⟨by decide,
    C5_amended_overwrite_once_nonempty emptySeriesSite 20 "https://u" ""
      (by decide)⟩

/-- C6 counterexample: when the second breadcrumb link's text strips to
the empty string, a category IS derived (stored as `some ""`) and it is
not in the tag list, yet — the empty string being falsy in
`if story_category and ...` — it is NOT prepended as the first tag. -/
theorem C6_counterexample :
    (download_story emptyCategorySite 10 "https://u").2.res.map
        (fun r => r.storyCategory) = some (some "") ∧
    (download_story emptyCategorySite 10 "https://u").2.res.map
        (fun r => r.storyTags) = some ["alpha"] ∧
    ("" : String) ∉ (["alpha"] : List String) := by decide

/-- C6 amended: for the crawl's stored metadata, (i) a raw category
string (the stripped second breadcrumb link) beginning with "inc" in any
letter case is stored as the literal "I/T"; (ii) every tag whose
stripped text begins with "inc" in any letter case is excluded from the
stored tag list; (iii) a derived category that is NON-EMPTY and not
already present in the scraped tag list is prepended as the first tag
(an empty derived category is falsy and is not prepended). -/
theorem C6_amended_category_rules (site : Url → FetchOutcome) (fuel : Nat)
    (url : Url) (r : DownloadResult) (page : PageRecord)
    (h : (download_story site fuel url).2 = .result r)
    (hpage : site url = .ok page) :
    (∀ l1 raw rest, page.breadcrumb = some (l1 :: raw :: rest) →
      pyStartsWith (pyLower (pyStrip raw)) "inc" = true →
      r.storyCategory = some "I/T") ∧
    (∀ t, t ∈ page.tagTexts → pyStartsWith (pyLower (pyStrip t)) "inc" = true →
      pyStrip t ∉ r.storyTags) ∧
    (∀ c, r.storyCategory = some c → c ≠ "" → c ∉ scrapedTags page →
      r.storyTags = c :: scrapedTags page) := by
  obtain ⟨page2, hpage2, -, hcat, htags⟩ := download_story_meta site fuel url r h
  rw [hpage] at hpage2
  injection hpage2 with hpp
  subst hpp
  refine ⟨?_, ?_, ?_⟩
  · intro l1 raw rest hb hinc
    rw [hcat, newCategoryOf_none, hb]
    exact deriveCategory_inc l1 raw rest hinc
  · intro t _ hinc
    rw [htags]
    exact newTagsOf_excludes page (pyStrip t) hinc
  · intro c hc hne hnotin
    rw [htags]
    unfold newTagsOf
    rw [show newCategoryOf page none = some c from by rw [← hcat]; exact hc]
    dsimp only
    rw [if_pos ⟨hne, hnotin⟩]

/-- Witness for C6 on `incestSite`: "Incest/Taboo" is stored as "I/T",
the tag "Incest" is excluded, and "I/T" is prepended as first tag. -/
theorem C6_amended_category_rules_witness :
    incestResult.storyCategory = some "I/T" ∧
    pyStrip "Incest" ∉ incestResult.storyTags ∧
    incestResult.storyTags = "I/T" :: scrapedTags incestPage ∧
    incestResult.storyTags = ["I/T", "alpha"] := by
  have h := C6_amended_category_rules incestSite 10 "https://u" incestResult
    incestPage (by decide) (by decide)
  refine ⟨?_, ?_, ?_, by decide⟩
  · exact h.1 "Home" "Incest/Taboo" [] rfl (by decide)
  · exact h.2.1 "Incest" (by decide) (by decide)
  · exact h.2.2 "I/T" (h.1 "Home" "Incest/Taboo" [] rfl (by decide))
      (by decide) (by decide)

/-- C7 counterexample: a first page listing the same tag link twice
yields a stored tag list with a duplicate — the scraped tags are not
deduplicated. -/
theorem C7_counterexample :
    (download_story dupTagSite 10 "https://u").2.res.map
        (fun r => r.storyTags) = some ["alpha", "alpha"] ∧
    ¬ (["alpha", "alpha"] : List String).Nodup := by decide

/-- C7 amended: the only deduplication is that the derived category is
not prepended when already present among the scraped tags; consequently
the stored tag list is duplicate-free whenever the scraped
(stripped, filtered) tag texts themselves are, but a tag listed twice on
the page is stored twice. -/
theorem C7_amended_tags_nodup (site : Url → FetchOutcome) (fuel : Nat)
    (url : Url) (r : DownloadResult) (page : PageRecord)
    (h : (download_story site fuel url).2 = .result r)
    (hpage : site url = .ok page)
    (hnd : (scrapedTags page).Nodup) :
    r.storyTags.Nodup := by
  obtain ⟨page2, hpage2, -, -, htags⟩ := download_story_meta site fuel url r h
  rw [hpage] at hpage2
  injection hpage2 with hpp
  subst hpp
  rw [htags]
  rcases newTagsOf_shape page with he | ⟨c, -, -, hnot, he⟩ <;> rw [he]
  · exact hnd
  · exact List.nodup_cons.mpr ⟨hnot, hnd⟩

/-- Witness for C7 on `incestSite`: distinct scraped tags give a
duplicate-free stored list. -/
theorem C7_amended_tags_nodup_witness :
    (scrapedTags incestPage).Nodup ∧ incestResult.storyTags.Nodup :=
  ⟨by decide,
    C7_amended_tags_nodup incestSite 10 "https://u" incestResult incestPage
      (by decide) (by decide) (by decide)⟩

/-- C8 counterexample: with equal-length lists whose only description is
empty, zero lines are produced and the packager adds NO description
field at all, rather than the empty-string join the claim implies. -/
theorem C8_counterexample :
    (create_epub_file "" ["Ch1"] [""] none []).descriptionField = none ∧
    (create_epub_file "" ["Ch1"] [""] none []).descriptionField
      ≠ some (pyJoin "\n" (((["Ch1"] : List String).zip [""]).filterMap
          (fun td => if td.2 ≠ "" then some (td.1 ++ ": " ++ td.2)
            else none))) := by decide

/-- C8 amended: for equal-length title and description lists, when at
least one chapter has a non-empty description the document's description
field is exactly the "title: description" lines of those chapters, in
order, joined by newline; when no chapter has one, the description field
is omitted entirely (not set to the empty string). -/
theorem C8_amended_description_field (content : String) (tl dl : List String)
    (cat : Option String) (tags : List String) (h : tl.length = dl.length) :
    ((tl.zip dl).filterMap
        (fun td => if td.2 ≠ "" then some (td.1 ++ ": " ++ td.2) else none)
        ≠ [] →
      (create_epub_file content tl dl cat tags).descriptionField
        = some (pyJoin "\n" ((tl.zip dl).filterMap
            (fun td =>
              if td.2 ≠ "" then some (td.1 ++ ": " ++ td.2) else none)))) ∧
    ((tl.zip dl).filterMap
        (fun td => if td.2 ≠ "" then some (td.1 ++ ": " ++ td.2) else none)
        = [] →
      (create_epub_file content tl dl cat tags).descriptionField = none) :=
  descriptionMeta_spec tl dl h

/-- Witness for C8: the spec's own example pair. -/
theorem C8_amended_description_field_witness :
    (["Ch1", "Ch2"] : List String).length
      = (["A meets B", "B leaves"] : List String).length ∧
    (create_epub_file "" ["Ch1", "Ch2"] ["A meets B", "B leaves"] none
      []).descriptionField = some "Ch1: A meets B\nCh2: B leaves" := by
  refine ⟨by decide, ?_⟩
  have h := (C8_amended_description_field "" ["Ch1", "Ch2"]
    ["A meets B", "B leaves"] none [] (by decide)).1 (by decide)
  rw [h]
  decide

/-- C9: the packager raises the "No valid chapters found" validation
error exactly when the assembled list of renderable sections (the
optional category/tags metadata page, the optional introduction, and one
section per "\n\nChapter "-split part) is empty; equivalently, exactly
when category and tags are falsy, the text before the first chapter
marker is blank, and no chapter marker occurs.  With at least one
renderable section the error is not raised. -/
theorem C9_validation_error_iff (content : String) (tl dl : List String)
    (cat : Option String) (tags : List String) :
    ((create_epub_file content tl dl cat tags).noChaptersError = true ↔
      (create_epub_file content tl dl cat tags).sections = []) ∧
    ((create_epub_file content tl dl cat tags).sections = [] ↔
      (truthyStr cat = false ∧ tags = [] ∧
        pyStrip (pySplit content "\n\nChapter ").headI = "" ∧
        (pySplit content "\n\nChapter ").tail = [])) := by
  constructor
  · simp [create_epub_file, List.isEmpty_iff]
  · exact epubSections_eq_nil_iff content cat tags

/-- C10: on every successful crawl the description list has exactly one
entry per processed chapter start while the title list has at most that
many (titles are only recorded when page 1 has a content block); and on
the concrete `mispairSite` crawl — one title, two descriptions — the
packager's zip pairs chapter 2's title "T2" with chapter 1's
description "D1". -/
theorem C10_titles_descriptions_invariant (site : Url → FetchOutcome)
    (fuel : Nat) (url : Url) (r : DownloadResult)
    (h : (download_story site fuel url).2 = .result r) :
    (r.chapterDescriptions.length
      = (chapterStarts (download_story site fuel url).1).length ∧
    r.chapterTitles.length ≤ r.chapterDescriptions.length) ∧
    ((download_story mispairSite 20 "https://u").2
      = DownloadOut.result mispairResult ∧
    mispairResult.chapterTitles.length
      < mispairResult.chapterDescriptions.length ∧
    (create_epub_file "" mispairResult.chapterTitles
      mispairResult.chapterDescriptions none []).descriptionField
        = some "T2: D1") := by
  obtain ⟨st, hfin, -, -, -, -, -, htit, hdesc⟩ :=
    download_story_result site fuel url r h
  obtain ⟨hc, hd, ht⟩ := crawlLoop_counts site fuel (initState url) st rfl hfin
  refine ⟨⟨?_, ?_⟩, by decide, by decide, by decide⟩
  · rw [hdesc, download_story_trace]
    simpa [initState] using hd
  · rw [htit, hdesc]
    have h0t : (initState url).chapterTitles.length = 0 := rfl
    have h0d : (initState url).chapterDescriptions.length = 0 := rfl
    omega

/-- Witness for C10 on `mispairSite`: two processed chapter starts, two
descriptions, one title. -/
theorem C10_titles_descriptions_invariant_witness :
    (download_story mispairSite 20 "https://u").2
      = DownloadOut.result mispairResult ∧
    mispairResult.chapterDescriptions.length
      = (chapterStarts (download_story mispairSite 20 "https://u").1).length ∧
    mispairResult.chapterTitles.length
      ≤ mispairResult.chapterDescriptions.length := by
  have h := C10_titles_descriptions_invariant mispairSite 20 "https://u"
    mispairResult (by decide)
  exact ⟨by decide, h.1.1, h.1.2⟩

end LitKeeper

